import Mathlib

/-!
Shallow embedding of the `ics_parser` crate (iCalendar processing library)
and verification of the frozen claims about its recurrence engine,
time-zone engine and property decoder.

Rust strings are modelled as `List Char` (ASCII inputs; byte-level UTF-8
slicing panics are out of scope).  Rust machine integers are modelled as
`Int`/`Nat` with explicit wrapping helpers where a cast can overflow.
Rust panics inside otherwise-pure functions are modelled with `Option`
(`none` = panic); fallible functions return `Except String`.
Lazy (possibly infinite) iterators are modelled as explicit state
machines; a `fuel` parameter bounds internal refill loops and a prefix
length bounds collected output.
-/

set_option maxRecDepth 16384

namespace ICal

/-- Rust `&str`/`String`, modelled as a list of characters. -/
abbrev RStr := List Char

/-- Convenience coercion from Lean string literals. -/
def rstr (s : String) : RStr := s.data

/-- Rust `u8::to_ascii_uppercase` on a single character. -/
def upperAsciiChar (c : Char) : Char :=
  if 'a' ≤ c ∧ c ≤ 'z' then Char.ofNat (c.toNat - 32) else c

/-- Rust `str::to_ascii_uppercase`. -/
def upperAscii (s : RStr) : RStr := s.map upperAsciiChar

/-! ### Machine-integer helpers

Rust casts and checked arithmetic, modelled over `Int`/`Nat`. -/

/-- Rust `as uN` cast of an integer value: wrap into `[0, 2^bits)`. -/
def wrapUnsigned (bits : Nat) (i : Int) : Nat := (i.emod (2 ^ bits)).toNat

/-- Rust `as iN` cast: wrap into `bits` bits, reinterpret as signed. -/
def wrapSigned (bits : Nat) (i : Int) : Int :=
  let m := i.emod (2 ^ bits)
  if m < 2 ^ (bits - 1) then m else m - 2 ^ bits

/-- Rust `i*::rem_euclid`; `none` models the division-by-zero panic. -/
def rustRemEuclid (a b : Int) : Option Int :=
  if b = 0 then none else some (a.emod b.natAbs)

/-- Rust unsigned subtraction `a - b`; `none` models the debug-build
underflow panic. -/
def rustUnsignedSub (a b : Nat) : Option Nat :=
  if a < b then none else some (a - b)

/-! ### Rust integer parsing (`str::parse::<iN/uN>`) -/

/-- Parse a non-empty all-digit string into a `Nat`. -/
def parseDigits : RStr → Option Nat
  | [] => none
  | cs =>
    let rec go : List Char → Nat → Option Nat
      | [], acc => some acc
      | c :: rest, acc =>
        if '0' ≤ c ∧ c ≤ '9' then go rest (acc * 10 + (c.toNat - '0'.toNat))
        else none
    go cs 0

/-- Rust `str::parse` for a signed integer type with range `[lo, hi]`:
an optional `+`/`-` sign, one or more digits, overflow is an error. -/
def parseSigned (lo hi : Int) (s : RStr) : Option Int :=
  let (neg, digits) : Bool × RStr :=
    match s with
    | '+' :: rest => (false, rest)
    | '-' :: rest => (true, rest)
    | rest => (false, rest)
  match parseDigits digits with
  | none => none
  | some n =>
    let v : Int := if neg then -(n : Int) else (n : Int)
    if lo ≤ v ∧ v ≤ hi then some v else none

/-- Rust `str::parse` for an unsigned integer type with maximum `hi`:
an optional `+` sign (no `-`), one or more digits, overflow is an error. -/
def parseUnsigned (hi : Nat) (s : RStr) : Option Nat :=
  let digits : RStr := match s with | '+' :: rest => rest | rest => rest
  match parseDigits digits with
  | none => none
  | some n => if n ≤ hi then some n else none

/-! ### String helpers mirroring Rust `str` methods -/

/-- Rust `str::split(sep)` (keeps empty pieces; `""` gives `[""]`). -/
def splitChar (sep : Char) (s : RStr) : List RStr :=
  let rec go : List Char → RStr → List RStr
    | [], acc => [acc.reverse]
    | c :: rest, acc =>
      if c = sep then acc.reverse :: go rest [] else go rest (c :: acc)
  go s []

/-- Rust `str::split_terminator(sep)`: like `split` but a trailing empty
piece is dropped, and `""` gives no pieces. -/
def splitTerminator (sep : Char) (s : RStr) : List RStr :=
  match s with
  | [] => []
  | _ =>
    let parts := splitChar sep s
    if parts.getLast? = some [] then parts.dropLast else parts

/-- Rust `str::split_once(sep)`: split at the first occurrence. -/
def splitOnceChar (sep : Char) : RStr → Option (RStr × RStr)
  | [] => none
  | c :: rest =>
    if c = sep then some ([], rest)
    else (splitOnceChar sep rest).map fun (a, b) => (c :: a, b)

/-- Rust `str::find('=')` + `split_at` as used in `RecurRule::from_str`:
the name before the first `=` and the value after it. -/
def splitAtFirstEq (s : RStr) : Option (RStr × RStr) := splitOnceChar '=' s

/-- Rust `str::ends_with`. -/
def endsWith (suffix s : RStr) : Bool := s.reverse.take suffix.length = suffix.reverse

/-- Rust `str::contains(char)`. -/
def containsChar (c : Char) (s : RStr) : Bool := s.contains c

/-! ## Calendar arithmetic (model of the `chrono` types used by the crate)

Dates are represented by the number of days since 1970-01-01 and
date-times by the number of seconds since 1970-01-01T00:00:00, using the
standard civil-from-days / days-from-civil algorithms.  This matches
`chrono`'s proleptic Gregorian semantics on the ranges exercised here
(`chrono`'s ±262143-year bound is not modelled). -/

/-- Gregorian leap year. -/
def isLeapYear (y : Int) : Bool :=
  y.emod 4 = 0 ∧ (y.emod 100 ≠ 0 ∨ y.emod 400 = 0)

/-- Number of days in a month of a given year. -/
def daysInMonthOf (y : Int) (m : Nat) : Nat :=
  match m with
  | 1 => 31 | 3 => 31 | 5 => 31 | 7 => 31 | 8 => 31 | 10 => 31 | 12 => 31
  | 4 => 30 | 6 => 30 | 9 => 30 | 11 => 30
  | 2 => if isLeapYear y then 29 else 28
  | _ => 0

/-- Number of days in a year. -/
def daysInYearOf (y : Int) : Nat := if isLeapYear y then 366 else 365

/-- Days since 1970-01-01 of the civil date `y-m-d` (Hinnant's algorithm). -/
def daysFromCivil (y : Int) (m d : Nat) : Int :=
  let y := if m ≤ 2 then y - 1 else y
  let era := y.fdiv 400
  let yoe := y - era * 400
  let doy : Int := (153 * ((m : Int) + (if m > 2 then -3 else 9)) + 2) / 5 + (d : Int) - 1
  let doe := yoe * 365 + yoe / 4 - yoe / 100 + doy
  era * 146097 + doe - 719468

/-- Civil date `(y, m, d)` of a days-since-1970-01-01 count. -/
def civilFromDays (z : Int) : Int × Nat × Nat :=
  let z := z + 719468
  let era := z.fdiv 146097
  let doe := z - era * 146097
  let yoe := (doe - doe / 1460 + doe / 36524 - doe / 146096) / 365
  let y := yoe + era * 400
  let doy := doe - (365 * yoe + yoe / 4 - yoe / 100)
  let mp := (5 * doy + 2) / 153
  let d := doy - (153 * mp + 2) / 5 + 1
  let m := mp + (if mp < 10 then 3 else -9)
  (if m ≤ 2 then y + 1 else y, m.toNat, d.toNat)

/-- `chrono::Weekday`. -/
inductive Weekday where
  | mon | tue | wed | thu | fri | sat | sun
  deriving DecidableEq, Repr

/-- `Weekday::num_days_from_monday`. -/
def Weekday.numDaysFromMonday : Weekday → Nat
  | .mon => 0 | .tue => 1 | .wed => 2 | .thu => 3
  | .fri => 4 | .sat => 5 | .sun => 6

/-- Weekday from a days-from-Monday count. -/
def weekdayFromNum (n : Nat) : Weekday :=
  match n % 7 with
  | 0 => .mon | 1 => .tue | 2 => .wed | 3 => .thu
  | 4 => .fri | 5 => .sat | _ => .sun

/-- `chrono::Duration`, in whole seconds (the crate only ever builds
whole-second durations). -/
abbrev Duration := Int

def Duration.weeks (n : Int) : Duration := n * 604800
def Duration.days' (n : Int) : Duration := n * 86400
def Duration.hours' (n : Int) : Duration := n * 3600
def Duration.minutes' (n : Int) : Duration := n * 60
def Duration.seconds' (n : Int) : Duration := n

/-- `chrono::Duration::num_days` (truncating division, as in Rust). -/
def Duration.numDays (d : Duration) : Int := d.tdiv 86400

/-- `chrono::NaiveDate`: days since 1970-01-01. -/
structure NaiveDate where
  days : Int
  deriving DecidableEq, Repr

/-- `chrono::NaiveDateTime`: seconds since 1970-01-01T00:00:00. -/
structure NaiveDateTime where
  secs : Int
  deriving DecidableEq, Repr

namespace NaiveDate

def fromYmd (y : Int) (m d : Nat) : NaiveDate := ⟨daysFromCivil y m d⟩

def year (t : NaiveDate) : Int := (civilFromDays t.days).1
def month (t : NaiveDate) : Nat := (civilFromDays t.days).2.1
def day (t : NaiveDate) : Nat := (civilFromDays t.days).2.2

/-- `Datelike::month0` (0-based month). -/
def month0 (t : NaiveDate) : Nat := t.month - 1

/-- `Datelike::ordinal` (1-based day of year). -/
def ordinal (t : NaiveDate) : Nat := (t.days - daysFromCivil t.year 1 1 + 1).toNat

def weekday (t : NaiveDate) : Weekday := weekdayFromNum ((t.days + 3).emod 7).toNat

/-- `Datelike::with_day` (1-based); `none` when invalid. -/
def withDay (t : NaiveDate) (d : Nat) : Option NaiveDate :=
  if 1 ≤ d ∧ d ≤ daysInMonthOf t.year t.month then some (fromYmd t.year t.month d)
  else none

/-- `Datelike::with_month` (1-based); `none` when invalid. -/
def withMonth (t : NaiveDate) (m : Nat) : Option NaiveDate :=
  if 1 ≤ m ∧ m ≤ 12 ∧ t.day ≤ daysInMonthOf t.year m then some (fromYmd t.year m t.day)
  else none

/-- `Datelike::with_month0` (0-based); `none` when invalid. -/
def withMonth0 (t : NaiveDate) (m : Nat) : Option NaiveDate := t.withMonth (m + 1)

/-- `Datelike::with_ordinal` (1-based); `none` when invalid. -/
def withOrdinal (t : NaiveDate) (o : Nat) : Option NaiveDate :=
  if 1 ≤ o ∧ o ≤ daysInYearOf t.year then
    some ⟨daysFromCivil t.year 1 1 + (o : Int) - 1⟩
  else none

/-- `Datelike::with_year`; `none` when the month/day is invalid there. -/
def withYear (t : NaiveDate) (y : Int) : Option NaiveDate :=
  if t.day ≤ daysInMonthOf y t.month then some (fromYmd y t.month t.day)
  else none

def addDur (t : NaiveDate) (d : Duration) : NaiveDate := ⟨t.days + d.numDays⟩

/-- `NaiveDate::and_hms`. -/
def andHms (t : NaiveDate) (h m s : Nat) : NaiveDateTime :=
  ⟨t.days * 86400 + (h : Int) * 3600 + (m : Int) * 60 + (s : Int)⟩

instance : LE NaiveDate := ⟨fun a b => a.days ≤ b.days⟩
instance : LT NaiveDate := ⟨fun a b => a.days < b.days⟩
instance : DecidableRel (· ≤ · : NaiveDate → NaiveDate → Prop) :=
  fun a b => inferInstanceAs (Decidable (a.days ≤ b.days))
instance : DecidableRel (· < · : NaiveDate → NaiveDate → Prop) :=
  fun a b => inferInstanceAs (Decidable (a.days < b.days))

/-- ISO week number of the date (`chrono`'s `iso_week().week()`). -/
def isoWeeksInYearAux (y : Int) : Int :=
  (y + y.fdiv 4 - y.fdiv 100 + y.fdiv 400).emod 7

/-- Number of ISO weeks in an ISO year. -/
def isoWeeksInYear (y : Int) : Nat :=
  if isoWeeksInYearAux y = 4 ∨ isoWeeksInYearAux (y - 1) = 3 then 53 else 52

def isoWeek (t : NaiveDate) : Nat :=
  let wd := t.weekday.numDaysFromMonday + 1
  let w : Int := ((t.ordinal : Int) - (wd : Int) + 10).fdiv 7
  if w < 1 then isoWeeksInYear (t.year - 1)
  else if w > (isoWeeksInYear t.year : Int) then 1
  else w.toNat

end NaiveDate

namespace NaiveDateTime

/-- The date part (`NaiveDateTime::date`). -/
def date (t : NaiveDateTime) : NaiveDate := ⟨t.secs.fdiv 86400⟩

/-- Seconds into the day. -/
def timeOfDay (t : NaiveDateTime) : Nat := (t.secs.emod 86400).toNat

def hour (t : NaiveDateTime) : Nat := t.timeOfDay / 3600
def minute (t : NaiveDateTime) : Nat := t.timeOfDay % 3600 / 60
def second (t : NaiveDateTime) : Nat := t.timeOfDay % 60

def ofDateTime (d : NaiveDate) (tod : Nat) : NaiveDateTime := ⟨d.days * 86400 + (tod : Int)⟩

/-- Map a `Datelike` operation over the date part, keeping the time. -/
def mapDate (f : NaiveDate → Option NaiveDate) (t : NaiveDateTime) : Option NaiveDateTime :=
  (f t.date).map fun d => ofDateTime d t.timeOfDay

def year (t : NaiveDateTime) : Int := t.date.year
def month (t : NaiveDateTime) : Nat := t.date.month
def month0 (t : NaiveDateTime) : Nat := t.date.month0
def day (t : NaiveDateTime) : Nat := t.date.day
def ordinal (t : NaiveDateTime) : Nat := t.date.ordinal
def weekday (t : NaiveDateTime) : Weekday := t.date.weekday
def isoWeek (t : NaiveDateTime) : Nat := t.date.isoWeek

def withDay (t : NaiveDateTime) (d : Nat) : Option NaiveDateTime := t.mapDate (·.withDay d)
def withMonth (t : NaiveDateTime) (m : Nat) : Option NaiveDateTime := t.mapDate (·.withMonth m)
def withMonth0 (t : NaiveDateTime) (m : Nat) : Option NaiveDateTime := t.mapDate (·.withMonth0 m)
def withOrdinal (t : NaiveDateTime) (o : Nat) : Option NaiveDateTime := t.mapDate (·.withOrdinal o)
def withYear (t : NaiveDateTime) (y : Int) : Option NaiveDateTime := t.mapDate (·.withYear y)

/-- `Timelike::with_hour`; `none` when invalid. -/
def withHour (t : NaiveDateTime) (h : Nat) : Option NaiveDateTime :=
  if h ≤ 23 then some (ofDateTime t.date (h * 3600 + t.timeOfDay % 3600)) else none

/-- `Timelike::with_minute`; `none` when invalid. -/
def withMinute (t : NaiveDateTime) (m : Nat) : Option NaiveDateTime :=
  if m ≤ 59 then some (ofDateTime t.date (t.timeOfDay / 3600 * 3600 + m * 60 + t.timeOfDay % 60))
  else none

/-- `Timelike::with_second`; `none` when invalid. -/
def withSecond (t : NaiveDateTime) (s : Nat) : Option NaiveDateTime :=
  if s ≤ 59 then some (ofDateTime t.date (t.timeOfDay / 60 * 60 + s)) else none

def addDur (t : NaiveDateTime) (d : Duration) : NaiveDateTime := ⟨t.secs + d⟩

/-- `NaiveDateTime` subtraction, a `Duration`. -/
def sub (a b : NaiveDateTime) : Duration := a.secs - b.secs

instance : LE NaiveDateTime := ⟨fun a b => a.secs ≤ b.secs⟩
instance : LT NaiveDateTime := ⟨fun a b => a.secs < b.secs⟩
instance : DecidableRel (· ≤ · : NaiveDateTime → NaiveDateTime → Prop) :=
  fun a b => inferInstanceAs (Decidable (a.secs ≤ b.secs))
instance : DecidableRel (· < · : NaiveDateTime → NaiveDateTime → Prop) :=
  fun a b => inferInstanceAs (Decidable (a.secs < b.secs))

def fromYmdHms (y : Int) (mo d h mi s : Nat) : NaiveDateTime :=
  (NaiveDate.fromYmd y mo d).andHms h mi s

end NaiveDateTime

/-- `chrono::FixedOffset`: seconds east of UTC. -/
abbrev FixedOffset := Int

/-- `FixedOffset::east_opt` bound check (`east` panics outside it). -/
def FixedOffset.eastOpt (secs : Int) : Option FixedOffset :=
  if -86400 < secs ∧ secs < 86400 then some secs else none

/-- `FixedOffset::west_opt`. -/
def FixedOffset.westOpt (secs : Int) : Option FixedOffset := FixedOffset.eastOpt (-secs)

/-- `chrono::DateTime<FixedOffset>`: an absolute instant (seconds since
epoch, i.e. `naive_utc`) together with the attached offset.  Equality and
ordering compare the instant only, as in `chrono`. -/
structure DateTimeFO where
  instant : Int
  offset : FixedOffset
  deriving Repr

/-- `chrono` equality on `DateTime` compares the instant. -/
def DateTimeFO.beq (a b : DateTimeFO) : Bool := a.instant = b.instant

def DateTimeFO.naiveUtc (t : DateTimeFO) : NaiveDateTime := ⟨t.instant⟩
def DateTimeFO.naiveLocal (t : DateTimeFO) : NaiveDateTime := ⟨t.instant + t.offset⟩

instance : LE DateTimeFO := ⟨fun a b => a.instant ≤ b.instant⟩
instance : LT DateTimeFO := ⟨fun a b => a.instant < b.instant⟩
instance : DecidableRel (· ≤ · : DateTimeFO → DateTimeFO → Prop) :=
  fun a b => inferInstanceAs (Decidable (a.instant ≤ b.instant))
instance : DecidableRel (· < · : DateTimeFO → DateTimeFO → Prop) :=
  fun a b => inferInstanceAs (Decidable (a.instant < b.instant))

/-- `FixedOffset::from_local_datetime(..).earliest()`: always a single
result for a fixed offset. -/
def FixedOffset.fromLocalDatetime (off : FixedOffset) (d : NaiveDateTime) : DateTimeFO :=
  ⟨d.secs - off, off⟩

/-- `chrono::DateTime<Utc>`: an absolute instant in seconds since epoch. -/
abbrev DateTimeUtc := Int

/-- `DateTime<Utc> → DateTime<FixedOffset>` (`.into()`, offset 0). -/
def DateTimeUtc.toFO (t : DateTimeUtc) : DateTimeFO := ⟨t, 0⟩

def DateTimeUtc.naiveUtc (t : DateTimeUtc) : NaiveDateTime := ⟨t⟩

/-! ## Result type

Rust functions here can fail (`Result`, modelled by the `Except` layer)
or panic (modelled by the `Option` layer: `none` = panic). -/

/-- Rust result-or-panic: `none` is a panic, `some (.error e)` an `Err`,
`some (.ok a)` an `Ok`. -/
abbrev RRes (α : Type) := ExceptT RStr Option α

instance {ε α : Type} [DecidableEq ε] [DecidableEq α] : DecidableEq (Except ε α) := fun a b =>
  match a, b with
  | .ok x, .ok y =>
    if h : x = y then .isTrue (by rw [h]) else .isFalse (by intro hc; cases hc; exact h rfl)
  | .error x, .error y =>
    if h : x = y then .isTrue (by rw [h]) else .isFalse (by intro hc; cases hc; exact h rfl)
  | .ok _, .error _ => .isFalse (by intro hc; cases hc)
  | .error _, .ok _ => .isFalse (by intro hc; cases hc)

/-- A Rust panic (`unwrap`/`expect`/indexing failure/arithmetic overflow
in a debug build). -/
def rpanic {α : Type} : RRes α := ExceptT.mk none

/-- Lift an `Option` whose `none` means a panic. -/
def ofPanicking {α : Type} (o : Option α) : RRes α := ExceptT.mk (o.map .ok)

/-- Lift an `Option` whose `none` means an error (`ok_or_else`, `?` on a
parse, `context`). -/
def ofOptErr {α : Type} (msg : RStr) (o : Option α) : RRes α :=
  match o with
  | some a => pure a
  | none => throw msg

/-- Lift a plain `Except`. -/
def ofExcept {α : Type} (e : Except RStr α) : RRes α := ExceptT.mk (some e)

/-! ## Raw component tree (`parser.rs` output types)

The pest-based syntactic parser itself is out of scope; its output types
are the interface consumed by the semantic layer. -/

/-- `parser::Parameter`. -/
structure RawParameter where
  name : RStr
  values : List RStr
  deriving DecidableEq, Repr

/-- `parser::Property`. -/
structure RawProperty where
  name : RStr
  value : RStr
  parameters : List RawParameter
  deriving DecidableEq, Repr

/-- `parser::Component`. -/
inductive Component where
  | mk (name : RStr) (subComponents : List Component) (properties : List RawProperty)
  deriving Repr

def Component.name : Component → RStr | .mk n _ _ => n
def Component.subComponents : Component → List Component | .mk _ s _ => s
def Component.properties : Component → List RawProperty | .mk _ _ p => p

/-! ## Parameters (`parameters.rs`) -/

/-- `parameters::Parameter`, the typed parameter enum. -/
inductive Parameter where
  | altRep (uri : RStr)
  | cn (v : RStr)
  | userType (v : RStr)
  | delegatedFrom (vs : List RStr)
  | delegatedTo (vs : List RStr)
  | dir (uri : RStr)
  | encoding (v : RStr)
  | formatType (v : RStr)
  | freeBusy (v : RStr)
  | language (v : RStr)
  | member (vs : List RStr)
  | participationStatus (v : RStr)
  | range (v : RStr)
  | related (v : RStr)
  | relationshipType (v : RStr)
  | participationRole (v : RStr)
  | rsvpExpectation (v : Bool)
  | sentBy (v : RStr)
  | timeZoneID (v : RStr)
  | valueDataType (v : RStr)
  | other (name : RStr) (values : List RStr)
  deriving DecidableEq, Repr

/-- `Parameter::from(parser::Parameter)`.  The `.last().expect("values")`
panics when the value list is empty (the syntactic parser guarantees at
least one value); `none` models that panic. -/
def Parameter.fromRaw (p : RawParameter) : Option Parameter :=
  let lastV : Option RStr := p.values.getLast?
  match upperAscii p.name with
  | cs =>
    if cs = rstr "ALTREP" then lastV.map .altRep
    else if cs = rstr "CN" then lastV.map .cn
    else if cs = rstr "CUTYPE" then lastV.map .userType
    else if cs = rstr "DELEGATED-FROM" then some (.delegatedFrom p.values)
    else if cs = rstr "DELEGATED-TO" then some (.delegatedTo p.values)
    else if cs = rstr "DIR" then lastV.map .dir
    else if cs = rstr "ENCODING" then lastV.map .encoding
    else if cs = rstr "FMTTYPE" then lastV.map .formatType
    else if cs = rstr "FBTYPE" then lastV.map .freeBusy
    else if cs = rstr "LANGUAGE" then lastV.map .language
    else if cs = rstr "MEMBER" then some (.member p.values)
    else if cs = rstr "PARTSTAT" then lastV.map .participationStatus
    else if cs = rstr "RANGE" then lastV.map .range
    else if cs = rstr "RELATED" then lastV.map .related
    else if cs = rstr "RELTYPE" then lastV.map .relationshipType
    else if cs = rstr "ROLE" then lastV.map .participationRole
    else if cs = rstr "RSVP" then lastV.map fun v => .rsvpExpectation (upperAscii v = rstr "TRUE")
    else if cs = rstr "SENT-BY" then lastV.map .sentBy
    else if cs = rstr "TZID" then lastV.map .timeZoneID
    else if cs = rstr "VALUE" then lastV.map .valueDataType
    else some (.other cs p.values)

/-- `parameters::ParameterSet`. -/
structure ParameterSet where
  parameters : List Parameter
  deriving DecidableEq, Repr

/-- `ParameterSet::from(iterator of parser::Parameter)`; `none` models a
panic inside `Parameter::from`. -/
def ParameterSet.ofRaw (ps : List RawParameter) : Option ParameterSet :=
  (ps.mapM Parameter.fromRaw).map ParameterSet.mk

/-- `ParameterSet::get_value_data_type`. -/
def ParameterSet.getValueDataType (s : ParameterSet) : Option RStr :=
  s.parameters.findSome? fun p => match p with | .valueDataType v => some v | _ => none

/-- `ParameterSet::get_encoding`. -/
def ParameterSet.getEncoding (s : ParameterSet) : Option RStr :=
  s.parameters.findSome? fun p => match p with | .encoding v => some v | _ => none

/-- `ParameterSet::get_tzid`. -/
def ParameterSet.getTzid (s : ParameterSet) : Option RStr :=
  s.parameters.findSome? fun p => match p with | .timeZoneID v => some v | _ => none

/-! ## `unescape.rs` -/

/-- `unescape::unescape`. -/
def unescapeGo : List Char → Except RStr RStr
  | [] => .ok []
  | c :: rest =>
    if c ≠ '\\' then (unescapeGo rest).map (c :: ·)
    else
      match rest with
      | 'n' :: rest => (unescapeGo rest).map ('\n' :: ·)
      | 'N' :: rest => (unescapeGo rest).map ('\n' :: ·)
      | '\\' :: rest => (unescapeGo rest).map ('\\' :: ·)
      | ';' :: rest => (unescapeGo rest).map (';' :: ·)
      | ',' :: rest => (unescapeGo rest).map (',' :: ·)
      | c :: _ => .error (rstr "Unexpected escape sequence \\" ++ [c])
      | [] => .error (rstr "String ends up in \\")

/-- `unescape::unescape` (entry point). -/
def unescape (s : RStr) : Except RStr RStr := unescapeGo s

/-! ## `chrono` datetime parsing for the formats used by the crate

The crate parses with the fixed formats `%Y%m%d`, `%Y%m%dT%H%M%S` and
`%Y%m%dT%H%M%SZ`.  `%Y` is modelled as exactly four digits (the shape of
every value in this crate's domain), the other fields as two digits, and
the whole input must be consumed, as `chrono` requires.  Leap-second
values (`%S` = 60) are not modelled. -/

def takeDigit (c : Char) : Option Nat :=
  if '0' ≤ c ∧ c ≤ '9' then some (c.toNat - '0'.toNat) else none

def take2Digits : RStr → Option (Nat × RStr)
  | a :: b :: rest => do pure (10 * (← takeDigit a) + (← takeDigit b), rest)
  | _ => none

def take4Digits : RStr → Option (Nat × RStr)
  | a :: b :: c :: d :: rest => do
    pure (1000 * (← takeDigit a) + 100 * (← takeDigit b) + 10 * (← takeDigit c)
      + (← takeDigit d), rest)
  | _ => none

/-- Parse `%Y%m%d` returning the remainder; validates the civil date. -/
def parseYmdPart (s : RStr) : Option (Int × Nat × Nat × RStr) := do
  let (y, s) ← take4Digits s
  let (m, s) ← take2Digits s
  let (d, s) ← take2Digits s
  if 1 ≤ m ∧ m ≤ 12 ∧ 1 ≤ d ∧ d ≤ daysInMonthOf (y : Int) m then
    pure ((y : Int), m, d, s)
  else none

/-- `NaiveDate::parse_from_str(value, "%Y%m%d")`. -/
def parseNaiveDate (s : RStr) : Option NaiveDate := do
  let (y, m, d, rest) ← parseYmdPart s
  if rest = [] then pure (NaiveDate.fromYmd y m d) else none

/-- `NaiveDateTime::parse_from_str(value, "%Y%m%dT%H%M%S")`, with an
optional trailing `Z` literal for `"%Y%m%dT%H%M%SZ"`. -/
def parseNaiveDateTime (zSuffix : Bool) (s : RStr) : Option NaiveDateTime := do
  let (y, m, d, s) ← parseYmdPart s
  match s with
  | 'T' :: s => do
    let (hh, s) ← take2Digits s
    let (mi, s) ← take2Digits s
    let (ss, s) ← take2Digits s
    let s ← if zSuffix then match s with | 'Z' :: s => some s | _ => none else some s
    if s = [] ∧ hh ≤ 23 ∧ mi ≤ 59 ∧ ss ≤ 59 then
      pure (NaiveDateTime.fromYmdHms y m d hh mi ss)
    else none
  | _ => none

/-- `NaiveDateTime::parse_from_str(value, "%Y%m%d")`: `chrono` always
fails with `NotEnough` because the format carries no time-of-day. -/
def parseNaiveDateTimeDateOnly (_s : RStr) : Option NaiveDateTime := none

/-! ## Recurrence rules (`property.rs`) -/

/-- `property::Frequency`. -/
inductive Frequency where
  | secondly | minutely | hourly | daily | weekly | monthly | yearly
  deriving DecidableEq, Repr

/-- `property::EndCondition`. -/
inductive EndCondition where
  | count (n : Nat)
  | untilLocal (t : NaiveDateTime)
  | untilUtc (t : DateTimeUtc)
  | infinite
  deriving DecidableEq, Repr

/-- `property::RecurRule`. -/
structure RecurRule where
  frequency : Frequency
  interval : Nat
  end_condition : EndCondition
  by_second : List Nat
  by_minute : List Nat
  by_hour : List Nat
  by_day : List (Option Int × Weekday)
  by_month_day : List Int
  by_year_day : List Int
  by_week_number : List Int
  by_month : List Nat
  by_set_pos : List Int
  week_start : Weekday
  deriving DecidableEq, Repr

/-- Rust `i8::abs`; `none` models the debug-build overflow panic at the
minimum value. -/
def rustAbsI8 (i : Int) : Option Int := if i = -128 then none else some i.natAbs

/-- Rust `i16::abs`; `none` models the debug-build overflow panic. -/
def rustAbsI16 (i : Int) : Option Int := if i = -32768 then none else some i.natAbs

/-- The numeric prefix matched by the regex `^([+-]?[0-9]+)` on a `BYDAY`
entry: the longest prefix consisting of an optional sign and at least one
digit (`Regex::find` is anchored here and the quantifier is greedy). -/
def takeSignedNumPrefix (s : RStr) : Option RStr :=
  let (sign, rest) : RStr × RStr :=
    match s with
    | '+' :: rest => (['+'], rest)
    | '-' :: rest => (['-'], rest)
    | rest => ([], rest)
  let digits := rest.takeWhile fun c => '0' ≤ c ∧ c ≤ '9'
  if digits = [] then none else some (sign ++ digits)

/-- Mutable state of the `RecurRule::from_str` loop. -/
structure RecurAccum where
  frequency : Option Frequency
  interval : Nat
  end_condition : EndCondition
  by_second : List Nat
  by_minute : List Nat
  by_hour : List Nat
  by_day : List (Option Int × Weekday)
  by_month_day : List Int
  by_year_day : List Int
  by_week_number : List Int
  by_month : List Nat
  by_set_pos : List Int
  week_start : Weekday

def RecurAccum.init : RecurAccum :=
  ⟨none, 1, .infinite, [], [], [], [], [], [], [], [], [], .mon⟩

/-- One `BYDAY` list entry (`for val in value.split_terminator(',')`). -/
def parseByDayEntry (part val : RStr) : RRes (Option Int × Weekday) := do
  let num : Option Int ←
    match takeSignedNumPrefix val with
    | some mat => do
      -- `mat.as_str().parse::<i8>()?`: a parse failure is an error.
      let n ← ofOptErr (rstr "invalid digit") (parseSigned (-128) 127 mat)
      pure (some n)
    | none => pure none
  let valU := upperAscii val
  let weekday ←
    if endsWith (rstr "MO") valU then pure Weekday.mon
    else if endsWith (rstr "TU") valU then pure Weekday.tue
    else if endsWith (rstr "WE") valU then pure Weekday.wed
    else if endsWith (rstr "TH") valU then pure Weekday.thu
    else if endsWith (rstr "FR") valU then pure Weekday.fri
    else if endsWith (rstr "SA") valU then pure Weekday.sat
    else if endsWith (rstr "SU") valU then pure Weekday.sun
    else throw (rstr "Invalid recur rule option: " ++ part)
  pure (num, weekday)

/-- Parse a comma-separated numeric list and check every element's
absolute value is in `[lo, hi]` (zero is thereby excluded when `lo ≥ 1`).
`abs` is the given (possibly panicking) Rust absolute value. -/
def parseSignedListChecked (part : RStr) (pLo pHi : Int) (abs : Int → Option Int)
    (lo hi : Int) (value : RStr) : RRes (List Int) := do
  let vs ← ofOptErr (rstr "Invalid recur rule option: " ++ part)
    ((splitChar ',' value).mapM (parseSigned pLo pHi))
  for s in vs do
    let a ← ofPanicking (abs s)
    if lo ≤ a ∧ a ≤ hi then pure () else throw (rstr "Invalid recur rule option: " ++ part)
  pure vs

/-- Parse a comma-separated unsigned list and range-check it. -/
def parseUnsignedListChecked (part : RStr) (pHi : Nat) (lo hi : Nat) (value : RStr) :
    RRes (List Nat) := do
  let vs ← ofOptErr (rstr "Invalid recur rule option: " ++ part)
    ((splitChar ',' value).mapM (parseUnsigned pHi))
  for s in vs do
    if lo ≤ s ∧ s ≤ hi then pure () else throw (rstr "Invalid recur rule option: " ++ part)
  pure vs

/-- The body of `RecurRule::from_str`'s `for part in ... .split(';')` loop. -/
def RecurRule.applyPart (acc : RecurAccum) (part : RStr) : RRes RecurAccum := do
  let (name, value) ← ofOptErr (rstr "Invalid recur rule: " ++ part) (splitAtFirstEq part)
  let nameU := upperAscii name
  if nameU = rstr "FREQ" then
    let valueU := upperAscii value
    let f ←
      if valueU = rstr "SECONDLY" then pure Frequency.secondly
      else if valueU = rstr "MINUTELY" then pure Frequency.minutely
      else if valueU = rstr "HOURLY" then pure Frequency.hourly
      else if valueU = rstr "DAILY" then pure Frequency.daily
      else if valueU = rstr "WEEKLY" then pure Frequency.weekly
      else if valueU = rstr "MONTHLY" then pure Frequency.monthly
      else if valueU = rstr "YEARLY" then pure Frequency.yearly
      else throw (rstr "Invalid frequency: " ++ value)
    pure { acc with frequency := some f }
  else if nameU = rstr "UNTIL" then
    if containsChar 'T' value then
      if endsWith (rstr "Z") value then
        let parsed ← ofOptErr (rstr "Invalid recur rule date: " ++ part)
          (parseNaiveDateTime true value)
        -- `DateTime::from_utc(parsed, Utc)`
        pure { acc with end_condition := .untilUtc parsed.secs }
      else
        let parsed ← ofOptErr (rstr "Invalid recur rule date: " ++ part)
          (parseNaiveDateTime false value)
        pure { acc with end_condition := .untilLocal parsed }
    else
      -- `NaiveDateTime::parse_from_str(value, "%Y%m%d")` never succeeds.
      let parsed ← ofOptErr (rstr "Invalid recur rule date: " ++ part)
        (parseNaiveDateTimeDateOnly value)
      pure { acc with end_condition := .untilLocal parsed }
  else if nameU = rstr "COUNT" then
    let n ← ofOptErr (rstr "Invalid recur rule option: " ++ part)
      (parseUnsigned (2 ^ 64 - 1) value)
    pure { acc with end_condition := .count n }
  else if nameU = rstr "INTERVAL" then
    let n ← ofOptErr (rstr "Invalid recur rule option: " ++ part)
      (parseUnsigned (2 ^ 64 - 1) value)
    pure { acc with interval := n }
  else if nameU = rstr "BYSECOND" then
    let vs ← parseUnsignedListChecked part 255 0 60 value
    pure { acc with by_second := vs }
  else if nameU = rstr "BYMINUTE" then
    let vs ← parseUnsignedListChecked part 255 0 60 value
    pure { acc with by_minute := vs }
  else if nameU = rstr "BYHOUR" then
    let vs ← parseUnsignedListChecked part 255 0 24 value
    pure { acc with by_hour := vs }
  else if nameU = rstr "BYDAY" then
    let entries ← (splitTerminator ',' value).mapM (parseByDayEntry part)
    pure { acc with by_day := acc.by_day ++ entries }
  else if nameU = rstr "BYMONTHDAY" then
    let vs ← parseSignedListChecked part (-128) 127 rustAbsI8 1 31 value
    pure { acc with by_month_day := vs }
  else if nameU = rstr "BYYEARDAY" then
    let vs ← parseSignedListChecked part (-32768) 32767 rustAbsI16 1 366 value
    pure { acc with by_year_day := vs }
  else if nameU = rstr "BYWEEKNO" then
    let vs ← parseSignedListChecked part (-32768) 32767 rustAbsI16 1 53 value
    pure { acc with by_week_number := vs }
  else if nameU = rstr "BYMONTH" then
    let vs ← parseUnsignedListChecked part 65535 1 12 value
    pure { acc with by_month := vs }
  else if nameU = rstr "BYSETPOS" then
    let vs ← parseSignedListChecked part (-32768) 32767 rustAbsI16 1 366 value
    pure { acc with by_set_pos := vs }
  else if nameU = rstr "WKST" then
    let valueU := upperAscii value
    let w ←
      if valueU = rstr "MO" then pure Weekday.mon
      else if valueU = rstr "TU" then pure Weekday.tue
      else if valueU = rstr "WE" then pure Weekday.wed
      else if valueU = rstr "TH" then pure Weekday.thu
      else if valueU = rstr "FR" then pure Weekday.fri
      else if valueU = rstr "SA" then pure Weekday.sat
      else if valueU = rstr "SU" then pure Weekday.sun
      else throw (rstr "Invalid recur rule option: " ++ part)
    pure { acc with week_start := w }
  else
    throw (rstr "Invalid recur rule option: " ++ part)

/-- The validation performed by `RecurRule::from_str` after its loop:
`FREQ` is required and the cross-combination checks are applied, before
any iteration can take place. -/
def RecurRule.finalize (acc : RecurAccum) : RRes RecurRule := do
  let frequency ← ofOptErr (rstr "Missing FREQ in RRULE") acc.frequency
  if acc.by_week_number ≠ [] ∧ frequency ≠ .yearly then
    throw (rstr "Invalid recur rule combination: cannot combine BYWEEKNO with non-YEARLY frequency")
  else if acc.by_year_day ≠ [] ∧
      (frequency = .daily ∨ frequency = .weekly ∨ frequency = .monthly) then
    throw (rstr "Invalid recur rule combination: cannot combine BYYEARDAY with DAILY/WEEKLY/MONTHLY frequency")
  else if acc.by_month_day ≠ [] ∧ frequency = .weekly then
    throw (rstr "Invalid recur rule combination: cannot combine BYMONTHDAY with WEEKLY frequency")
  else if frequency ≠ .monthly ∧ frequency ≠ .yearly ∧
      acc.by_day.any (fun e => e.1.isSome) then
    throw (rstr "Invalid recur rule combination: cannot have integer in BYDAY when frequency is not MONTHLY or YEARLY")
  else
    pure ⟨frequency, acc.interval, acc.end_condition, acc.by_second, acc.by_minute,
      acc.by_hour, acc.by_day, acc.by_month_day, acc.by_year_day, acc.by_week_number,
      acc.by_month, acc.by_set_pos, acc.week_start⟩

/-- `RecurRule::from_str` (the `FromStr` impl). -/
def RecurRule.fromStr (s : RStr) : RRes RecurRule := do
  let acc ← (splitChar ';' s).foldlM RecurRule.applyPart RecurAccum.init
  RecurRule.finalize acc

/-! ## Date-set expansion (`expand_dates` / `expand_times`)

The Rust functions are generic over `ExtendedDatelike`; the dictionary
`DatelikeOps` plays that role, instantiated at `NaiveDate` and
`NaiveDateTime`.  Panics (`expect`, `panic!`, debug-build
overflow/underflow) are modelled by `none`. -/

structure DatelikeOps (α : Type) where
  year : α → Int
  month : α → Nat
  month0 : α → Nat
  day : α → Nat
  ordinal : α → Nat
  weekday : α → Weekday
  isoWeek : α → Nat
  withDay : α → Nat → Option α
  withMonth : α → Nat → Option α
  withMonth0 : α → Nat → Option α
  withOrdinal : α → Nat → Option α
  withYear : α → Int → Option α
  addDur : α → Duration → α
  le : α → α → Bool
  lt : α → α → Bool

def naiveDateOps : DatelikeOps NaiveDate where
  year := NaiveDate.year
  month := NaiveDate.month
  month0 := NaiveDate.month0
  day := NaiveDate.day
  ordinal := NaiveDate.ordinal
  weekday := NaiveDate.weekday
  isoWeek := NaiveDate.isoWeek
  withDay := NaiveDate.withDay
  withMonth := NaiveDate.withMonth
  withMonth0 := NaiveDate.withMonth0
  withOrdinal := NaiveDate.withOrdinal
  withYear := NaiveDate.withYear
  addDur := NaiveDate.addDur
  le a b := decide (a ≤ b)
  lt a b := decide (a < b)

def naiveDateTimeOps : DatelikeOps NaiveDateTime where
  year := NaiveDateTime.year
  month := NaiveDateTime.month
  month0 := NaiveDateTime.month0
  day := NaiveDateTime.day
  ordinal := NaiveDateTime.ordinal
  weekday := NaiveDateTime.weekday
  isoWeek := NaiveDateTime.isoWeek
  withDay := NaiveDateTime.withDay
  withMonth := NaiveDateTime.withMonth
  withMonth0 := NaiveDateTime.withMonth0
  withOrdinal := NaiveDateTime.withOrdinal
  withYear := NaiveDateTime.withYear
  addDur := NaiveDateTime.addDur
  le a b := decide (a ≤ b)
  lt a b := decide (a < b)

/-- Rust `u32` addition; `none` models the debug-build overflow panic. -/
def rustU32Add (a b : Nat) : Option Nat :=
  if a + b < 2 ^ 32 then some (a + b) else none

/-- `Frequency::advance_date`.  For months and years the day is reset
to 1; the `u64 → i64/u32/i32` casts wrap as in Rust. -/
def Frequency.advanceDate (ops : DatelikeOps α) (freq : Frequency) (date : α)
    (interval : Nat) : Option α :=
  match freq with
  | .secondly => some (ops.addDur date (Duration.seconds' (wrapSigned 64 interval)))
  | .minutely => some (ops.addDur date (Duration.minutes' (wrapSigned 64 interval)))
  | .hourly => some (ops.addDur date (Duration.hours' (wrapSigned 64 interval)))
  | .daily => some (ops.addDur date (Duration.days' (wrapSigned 64 interval)))
  | .weekly => some (ops.addDur date (Duration.days' (7 * wrapSigned 64 interval)))
  | .monthly => do
    let currentMonth := ops.month0 date
    -- `current_month + interval as u32` is a u32 addition.
    let s ← rustU32Add currentMonth (wrapUnsigned 32 interval)
    let d1 ← ops.withDay date 1
    let d2 ← ops.withMonth0 d1 (s % 12)
    -- `date.year() + (current_month + interval as u32) as i32 / 12`
    ops.withYear d2 (ops.year date + (wrapSigned 32 s).tdiv 12)
  | .yearly => do
    let d1 ← ops.withDay date 1
    ops.withYear d1 (ops.year date + wrapSigned 32 interval)

/-- `get_days_in_year`. -/
def getDaysInYear (ops : DatelikeOps α) (d : α) : Nat :=
  if (ops.withOrdinal d 366).isSome then 366 else 365

/-- `get_weeks_in_year` (via `NaiveDate::from_isoywd_opt(year, 53, ws)`). -/
def getWeeksInYear (ops : DatelikeOps α) (_weekStart : Weekday) (d : α) : Nat :=
  if NaiveDate.isoWeeksInYear (ops.year d) = 53 then 53 else 52

/-- `get_days_in_month` (probes `with_day` at 31, 30, 29, 28). -/
def getDaysInMonth (ops : DatelikeOps α) (d : α) : Option Nat :=
  if (ops.withDay d 31).isSome then some 31
  else if (ops.withDay d 30).isSome then some 30
  else if (ops.withDay d 29).isSome then some 29
  else if (ops.withDay d 28).isSome then some 28
  else none

/-- `ExtendedDatelike::same_day`. -/
def sameDay (ops : DatelikeOps α) (a b : α) : Bool :=
  ops.year a = ops.year b ∧ ops.ordinal a = ops.ordinal b

/-- The `while date < end` collection loop of `get_weekdays_in_period`;
the windows built by the crate span at most a year, well under the fuel. -/
def weekdaysLoop (ops : DatelikeOps α) (endD : α) : Nat → α → List α
  | 0, _ => []
  | fuel + 1, date =>
    if ops.lt date endD then date :: weekdaysLoop ops endD fuel (ops.addDur date (Duration.days' 7))
    else []

/-- `get_weekdays_in_period`. -/
def getWeekdaysInPeriod (ops : DatelikeOps α) (start endD : α) (day : Weekday)
    (num : Option Int) : Option (List α) :=
  let diff : Int :=
    ((day.numDaysFromMonday : Int) - (ops.weekday start).numDaysFromMonday).emod 7
  let first := ops.addDur start (Duration.days' diff)
  let potentialDates := weekdaysLoop ops endD 400 first
  match num with
  | some n =>
    if n > 0 then
      match potentialDates.get? ((n - 1).toNat) with
      | some date => some [date]
      | none => some []
    else
      match rustRemEuclid n (potentialDates.length : Int) with
      | none => none
      | some idx =>
        match potentialDates.get? idx.toNat with
        | some date => some [date]
        | none => some []
  | none => some potentialDates

/-- `get_start_of_week`. -/
def getStartOfWeek (ops : DatelikeOps α) (weekStart : Weekday) (date : α) : α :=
  let difference : Int :=
    (weekStart.numDaysFromMonday : Int) - (ops.weekday date).numDaysFromMonday
  let difference := if difference > 0 then difference - 7 else difference
  ops.addDur date (Duration.days' difference)

/-- `expand_dates`.  Each `BY*` block either filters or expands the date
set depending on the frequency, exactly as in the source; `none` models
a panic (including the `BYWEEKNO` `panic!` for non-yearly rules and the
debug-build unsigned subtraction underflows). -/
def expandDates (ops : DatelikeOps α) (recur : RecurRule) (dateSet0 : List α) :
    Option (List α) := do
  let mut dateSet := dateSet0

  if recur.by_month ≠ [] then
    match recur.frequency with
    | .yearly =>
      let expanded ← dateSet.mapM fun d =>
        recur.by_month.mapM fun s => ops.withMonth d s
      dateSet := expanded.flatten
    | _ =>
      dateSet := dateSet.filter fun d => recur.by_month.contains (ops.month d)

  if recur.by_week_number ≠ [] then
    match recur.frequency with
    | .yearly =>
      let weekStart := recur.week_start
      let expanded ← dateSet.mapM fun d =>
        recur.by_week_number.mapM fun s => do
          let s : Int ←
            if s < 0 then
              pure (s.tmod (getWeeksInYear ops weekStart d : Int))
            else pure s
          -- `s as u32 - d.iso_week().week()` is a u32 subtraction.
          let diff ← rustUnsignedSub (wrapUnsigned 32 s) (ops.isoWeek d)
          pure (ops.addDur d (Duration.days' diff))
      dateSet := expanded.flatten
    | _ => (← none)  -- `panic!("BYWEEKNO cannot be specified unless FREQ=YEARLY")`

  if recur.by_year_day ≠ [] then
    match recur.frequency with
    | .yearly =>
      let expanded ← dateSet.mapM fun d => do
        let daysInYear : Int := (getDaysInYear ops d : Int)
        recur.by_year_day.mapM fun s => do
          let s := if s > 0 then s - 1 else s + daysInYear
          -- `(s % days_in_year) as u32 + 1` (u32 addition)
          let o ← rustU32Add (wrapUnsigned 32 (s.tmod daysInYear)) 1
          ops.withOrdinal d o
      dateSet := expanded.flatten
    | _ =>
      let kept ← dateSet.filterM fun d => do
        let daysInYear : Int := (getDaysInYear ops d : Int)
        let byYearDay ← recur.by_year_day.mapM fun s => do
          let s := if s > 0 then s - 1 else s + daysInYear
          rustU32Add (wrapUnsigned 32 (s.tmod daysInYear)) 1
        pure (byYearDay.contains (ops.ordinal d))
      dateSet := kept

  if recur.by_month_day ≠ [] then
    match recur.frequency with
    | .monthly | .yearly =>
      let expanded ← dateSet.mapM fun d => do
        let daysInMonth : Int := ((← getDaysInMonth ops d) : Int)
        recur.by_month_day.mapM fun s => do
          let s := if s > 0 then s - 1 else s + daysInMonth
          let o ← rustU32Add (wrapUnsigned 32 (s.tmod daysInMonth)) 1
          ops.withDay d o
      dateSet := expanded.flatten
    | _ =>
      let kept ← dateSet.filterM fun d => do
        let daysInMonth : Int := ((← getDaysInMonth ops d) : Int)
        let byMonthDay ← recur.by_month_day.mapM fun s => do
          let s := if s > 0 then s - 1 else s + daysInMonth
          rustU32Add (wrapUnsigned 32 (s.tmod daysInMonth)) 1
        pure (byMonthDay.contains (ops.day d))
      dateSet := kept

  if recur.by_day ≠ [] then
    let isMonthDayEmpty := recur.by_month_day = []
    match recur.frequency with
    | .secondly | .minutely | .hourly | .daily =>
      -- Numeric part of BYDAY ignored (only legal for MONTHLY/YEARLY).
      dateSet := dateSet.filter fun d =>
        recur.by_day.any fun e => e.2 = ops.weekday d
    | .weekly =>
      dateSet := dateSet.map (fun d =>
        let weekStart := getStartOfWeek ops recur.week_start d
        recur.by_day.map fun e =>
          let diff : Int :=
            (7 + (e.2.numDaysFromMonday : Int)
              - ((ops.weekday weekStart).numDaysFromMonday : Int)).tmod 7
          ops.addDur weekStart (Duration.days' diff)) |>.flatten
    | .monthly =>
      let expanded ← dateSet.mapM fun d => do
        let monthStart ← ops.withDay d 1
        let monthEnd ← ops.withDay (ops.addDur monthStart (Duration.days' 32)) 1
        let lists ← recur.by_day.mapM fun e => do
          let dates ← getWeekdaysInPeriod ops monthStart monthEnd e.2 e.1
          pure (dates.filter fun date => isMonthDayEmpty ∨ sameDay ops date d)
        pure lists.flatten
      dateSet := expanded.flatten
    | .yearly =>
      let limit := recur.by_year_day ≠ [] ∨ recur.by_month_day ≠ []
      let freq : Frequency :=
        if recur.by_week_number ≠ [] then .weekly
        else if recur.by_month ≠ [] then .monthly
        else .yearly
      let weekStart := recur.week_start
      let expanded ← dateSet.mapM fun d => do
        let (start, endD) ← (do
          match freq with
          | .weekly => do
            -- u32 subtraction (debug-build underflow panics)
            let diff ← rustUnsignedSub ((ops.weekday d).numDaysFromMonday)
              weekStart.numDaysFromMonday
            let start := ops.addDur d (-(Duration.days' diff))
            pure (start, ops.addDur start (Duration.days' 7))
          | .monthly => do
            let monthStart ← ops.withDay d 1
            let monthEnd ← ops.withDay (ops.addDur monthStart (Duration.days' 32)) 1
            pure (monthStart, monthEnd)
          | .yearly => do
            let start ← (ops.withDay d 1).bind (ops.withMonth · 1)
            let endD ← ops.withYear start (ops.year start + 1)
            pure (start, endD)
          | _ => none : Option (α × α))
        let lists ← recur.by_day.mapM fun e => do
          let dates ← getWeekdaysInPeriod ops start endD e.2 e.1
          pure (dates.filter fun date => ¬ limit ∨ sameDay ops date d)
        pure lists.flatten
      dateSet := expanded.flatten

  pure dateSet

/-- `expand_times` (only ever instantiated at `NaiveDateTime`). -/
def expandTimes (recur : RecurRule) (dateSet0 : List NaiveDateTime) :
    Option (List NaiveDateTime) := do
  let mut dateSet := dateSet0

  if recur.by_hour ≠ [] then
    match recur.frequency with
    | .secondly | .minutely | .hourly =>
      dateSet := dateSet.filter fun d => recur.by_hour.contains d.hour
    | _ =>
      let expanded ← dateSet.mapM fun d =>
        recur.by_hour.mapM fun s => d.withHour s
      dateSet := expanded.flatten

  if recur.by_minute ≠ [] then
    match recur.frequency with
    | .secondly | .minutely =>
      dateSet := dateSet.filter fun d => recur.by_minute.contains d.minute
    | _ =>
      let expanded ← dateSet.mapM fun d =>
        recur.by_minute.mapM fun s => d.withMinute s
      dateSet := expanded.flatten

  if recur.by_second ≠ [] then
    match recur.frequency with
    | .secondly =>
      dateSet := dateSet.filter fun d => recur.by_second.contains d.second
    | _ =>
      let expanded ← dateSet.mapM fun d =>
        recur.by_second.mapM fun s => d.withSecond s
      dateSet := expanded.flatten

  pure dateSet

/-! ## The recurrence iterator (`RecurIter`) -/

/-- The `Expandable` trait (`Sized + PartialOrd + Copy` plus the four
methods). -/
structure Expandable (α : Type) where
  expandDateSet : RecurRule → α → Option (List α)
  advance : α → Frequency → Nat → Option α
  leqLocal : α → NaiveDateTime → Bool
  toNaiveDT : α → NaiveDateTime
  le : α → α → Bool
  beq : α → α → Bool

/-- `impl Expandable for NaiveDate`. -/
def NaiveDate.expandable : Expandable NaiveDate where
  expandDateSet recur d := expandDates naiveDateOps recur [d]
  advance d freq interval :=
    (Frequency.advanceDate naiveDateTimeOps freq (d.andHms 0 0 0) interval).map (·.date)
  leqLocal d t := decide (d ≤ t.date)
  toNaiveDT d := d.andHms 23 59 59
  le a b := decide (a ≤ b)
  beq a b := a = b

/-- `impl Expandable for NaiveDateTime`. -/
def NaiveDateTime.expandable : Expandable NaiveDateTime where
  expandDateSet recur d := (expandDates naiveDateTimeOps recur [d]).bind (expandTimes recur)
  advance d freq interval := Frequency.advanceDate naiveDateTimeOps freq d interval
  leqLocal d t := decide (d ≤ t)
  toNaiveDT d := d
  le a b := decide (a ≤ b)
  beq a b := a = b

/-- `itertools::dedup` (drop elements equal to the last yielded one). -/
def dedupGo (eq : α → α → Bool) (prev : α) : List α → List α
  | [] => []
  | b :: rest => if eq prev b then dedupGo eq prev rest else b :: dedupGo eq b rest

def dedupBy (eq : α → α → Bool) : List α → List α
  | [] => []
  | a :: rest => a :: dedupGo eq a rest

/-- The `Offseter` trait. `none` models a panic inside the
implementation (the `VTimeZone` impl can panic on an invalid zone). -/
structure Offseter where
  toInstance : NaiveDateTime → Option DateTimeFO
  fromInstance : DateTimeFO → Option NaiveDateTime

/-- `impl Offseter for FixedOffset`. -/
def FixedOffset.offseter (off : FixedOffset) : Offseter where
  toInstance d := some (FixedOffset.fromLocalDatetime off d)
  fromInstance d := some (d.naiveUtc.addDur off)

/-- The state held by `RecurIter`. -/
structure RecurIterState (α : Type) where
  recur : RecurRule
  next_date : Option α
  queue : List α
  max_count : Option Nat
  untilBound : Option NaiveDateTime
  count : Nat
  previous_date : Option α

/-- The index `RecurIter::next` computes for one `BYSETPOS` entry `p`:
`p - 1` when positive, else `p.rem_euclid(by_set_pos.len() as i16)`
(note: modulo the length of the `BYSETPOS` list itself, not of the date
set). -/
def codeSetPosIndex (recur : RecurRule) (p : Int) : Option Int :=
  if p > 0 then some (p - 1)
  else rustRemEuclid p (wrapSigned 16 recur.by_set_pos.length)

/-- The `BYSETPOS` selection inside `RecurIter::next`: for each listed
`p` the element `date_set[pos as usize]` at the computed index, whose
out-of-bounds panic is `none`. -/
def applySetPos (recur : RecurRule) (dateSet : List α) : Option (List α) :=
  recur.by_set_pos.mapM fun p =>
    (codeSetPosIndex recur p).bind fun pos => dateSet.get? pos.toNat

/-- The queue contents built from a (post-`BYSETPOS`) date set:
`date_set.filter(|d| Some(*d) != previous_date).dedup()`. -/
def buildQueue (ex : Expandable α) (previous : Option α) (dateSet : List α) : List α :=
  dedupBy ex.beq (dateSet.filter fun d =>
    match previous with
    | some p => ¬ ex.beq d p
    | none => true)

/-- Result of the `while self.queue.is_empty()` refill loop. -/
inductive RefillResult (α : Type) where
  | panicked
  | fuelOut
  | exhausted
  | filled (s : RecurIterState α)

/-- The refill loop of `RecurIter::next`: take the next anchor, advance
it, expand it, apply `BYSETPOS`, filter/dedup, enqueue; repeat while the
queue stays empty. -/
def RecurIter.refill (ex : Expandable α) : Nat → RecurIterState α → RefillResult α
  | 0, _ => .fuelOut
  | fuel + 1, s =>
    if ¬ s.queue.isEmpty then .filled s
    else
      match s.next_date with
      | none => .exhausted
      | some currDate =>
        match ex.advance currDate s.recur.frequency s.recur.interval with
        | none => .panicked
        | some nxt =>
          let s := { s with next_date := some nxt }
          match ex.expandDateSet s.recur currDate with
          | none => .panicked
          | some dateSet0 =>
            match (if s.recur.by_set_pos ≠ [] then applySetPos s.recur dateSet0
                   else some dateSet0) with
            | none => .panicked
            | some dateSet =>
              let s :=
                if ¬ dateSet.isEmpty then { s with queue := buildQueue ex s.previous_date dateSet }
                else s
              RecurIter.refill ex fuel s

/-- The outcome of one `RecurIter::next` call. -/
inductive Step (α : Type) where
  | panicked
  | fuelOut
  | stopped
  | yielded (d : α) (s : RecurIterState α)

/-- `RecurIter::next`: refill if needed, pop the queue head, apply the
`COUNT`/`UNTIL` termination checks, and record the emitted value. -/
def RecurIter.next (ex : Expandable α) (fuel : Nat) (s : RecurIterState α) : Step α :=
  match RecurIter.refill ex fuel s with
  | .panicked => .panicked
  | .fuelOut => .fuelOut
  | .exhausted => .stopped
  | .filled s =>
    match s.queue with
    | [] => .stopped
    | toReturn :: rest =>
      let s := { s with queue := rest }
      if (match s.max_count with | some mc => decide (s.count ≥ mc) | none => false) then
        .stopped
      else if (match s.untilBound with
               | some u => ! ex.leqLocal toReturn u
               | none => false) then .stopped
      else .yielded toReturn
        { s with count := s.count + 1, previous_date := some toReturn }

/-- The first `n` values produced by the iterator (collection stops at
`None`, a panic, or fuel exhaustion in the refill loop). -/
def RecurIter.collect (ex : Expandable α) (fuel : Nat) :
    RecurIterState α → Nat → List α
  | _, 0 => []
  | s, n + 1 =>
    match RecurIter.next ex fuel s with
    | .yielded d s' => d :: RecurIter.collect ex fuel s' n
    | _ => []

/-- The `(max_count, until)` pair computed from the end condition at the
head of `from_date` and both `*_with_extras` constructors; `none` models
a panic inside the offseter. -/
def RecurRule.boundsOf (rule : RecurRule) (off : Offseter) :
    Option (Option Nat × Option NaiveDateTime) :=
  match rule.end_condition with
  | .count c => some (some c, none)
  | .untilLocal t => some (none, some t)
  | .untilUtc t => (off.fromInstance t.toFO).map fun n => (none, some n)
  | .infinite => some (none, none)

/-- `RecurRule::from_date`: the iterator's initial state. -/
def RecurRule.fromDate (rule : RecurRule) (date : NaiveDateTime) (off : Offseter) :
    Option (RecurIterState NaiveDateTime) :=
  (rule.boundsOf off).map fun (mc, ub) => ⟨rule, some date, [], mc, ub, 0, none⟩

/-! ### The `*_with_extras` pipelines (`RDATE` merge, `EXDATE` filter)

The Rust pipelines are lazy; they are modelled on the first `n` elements
produced by the underlying `RecurIter`, which is exact whenever the
consumer needs no more than that prefix. -/

/-- `itertools::merge` / `merge_by`: emit the left element when the
predicate holds. -/
def mergeByFuel (takeLeft : α → α → Bool) : Nat → List α → List α → List α
  | 0, xs, ys => xs ++ ys
  | _, [], ys => ys
  | _, x :: xs, [] => x :: xs
  | fuel + 1, x :: xs, y :: ys =>
    if takeLeft x y then x :: mergeByFuel takeLeft fuel xs (y :: ys)
    else y :: mergeByFuel takeLeft fuel (x :: xs) ys

def mergeByList (takeLeft : α → α → Bool) (xs ys : List α) : List α :=
  mergeByFuel takeLeft (xs.length + ys.length) xs ys

/-- `itertools::kmerge_by` on finitely many finite streams, modelled as
repeated binary merges (tie order may differ from the heap's, which no
claim depends on). -/
def kmergeByList (isLess : α → α → Bool) (ls : List (List α)) : List α :=
  ls.foldl (fun acc l => mergeByList isLess acc l) []

/-- The `ToNaive` trait connecting a zoned type `τ` with its naive
counterpart `ν`. -/
structure ToNaiveOps (τ ν : Type) where
  toNaive : τ → ν
  fromNaive : ν → Offseter → Option τ
  le : τ → τ → Bool
  beq : τ → τ → Bool

/-- `impl ToNaive for DateTime<Utc>` (`to_naive` is `naive_local`, which
for UTC is the UTC naive time). -/
def dtUtcToNaive : ToNaiveOps DateTimeUtc NaiveDateTime where
  toNaive t := ⟨t⟩
  fromNaive n off := (off.toInstance n).map (·.instant)
  le a b := decide (a ≤ b)
  beq a b := a = b

/-- `impl ToNaive for DateTime<FixedOffset>`. -/
def dtFOToNaive : ToNaiveOps DateTimeFO NaiveDateTime where
  toNaive t := t.naiveLocal
  fromNaive n off := off.toInstance n
  le a b := decide (a ≤ b)
  beq := DateTimeFO.beq

/-- The identity `ToNaive` impl for any `Expandable` type. -/
def idToNaive (ex : Expandable ν) : ToNaiveOps ν ν where
  toNaive t := t
  fromNaive n _ := some n
  le := ex.le
  beq := ex.beq

/-- `RecurRule::from_naive_date_with_extras`: recurrence over the naive
type, merged with `rdates`, filtered by `exdates`, deduplicated, then
converted by the offseter.  Yields the first `n` recurrence values'
worth of the pipeline. -/
def RecurRule.fromNaiveDateWithExtras {τ ν ε : Type} (rule : RecurRule)
    (exN : Expandable ν) (tn : ToNaiveOps τ ν) (eqEx : ν → ε → Bool)
    (date : ν) (rdates : List ν) (exdates : List ε) (off : Offseter)
    (fuel n : Nat) : Option (List τ) := do
  let (mc, ub) ← rule.boundsOf off
  let st : RecurIterState ν := ⟨rule, some date, [], mc, ub, 0, none⟩
  let naive := RecurIter.collect exN fuel st n
  let merged := mergeByList exN.le naive rdates
  let filtered := merged.filter fun d => exdates.all fun ex2 => ¬ eqEx d ex2
  let dd := dedupBy exN.beq filtered
  dd.mapM fun d => tn.fromNaive d off

/-- `RecurRule::from_date_with_extras`: recurrence converted first, then
merged with zoned `rdates`, deduplicated, and filtered by `exdates`. -/
def RecurRule.fromDateWithExtras {τ ν ε : Type} (rule : RecurRule)
    (exN : Expandable ν) (tn : ToNaiveOps τ ν) (eqEx : τ → ε → Bool)
    (date : τ) (rdates : List τ) (exdates : List ε) (off : Offseter)
    (fuel n : Nat) : Option (List τ) := do
  let (mc, ub) ← rule.boundsOf off
  let st : RecurIterState ν := ⟨rule, some (tn.toNaive date), [], mc, ub, 0, none⟩
  let naive := RecurIter.collect exN fuel st n
  let mapped ← naive.mapM fun d => tn.fromNaive d off
  let merged := mergeByList tn.le mapped rdates
  let dd := dedupBy tn.beq merged
  pure (dd.filter fun d => exdates.all fun ex2 => ¬ eqEx d ex2)

/-! ## Typed property values (`property.rs`) -/

/-- `property::IcalDateTime`. -/
inductive IcalDateTime where
  | local (d : NaiveDateTime)
  | utc (d : DateTimeUtc)
  | tz (date : NaiveDateTime) (tzid : RStr)
  deriving DecidableEq, Repr

/-- `property::DateOrDateTime`. -/
inductive DateOrDateTime where
  | date (d : NaiveDate)
  | dateTime (d : IcalDateTime)
  deriving DecidableEq, Repr

/-- `property::Period`. -/
structure Period where
  start : IcalDateTime
  duration : Duration
  deriving DecidableEq, Repr

/-- `property::DateDateTimeOrPeriod`. -/
inductive DateDateTimeOrPeriod where
  | date (d : NaiveDate)
  | dateTime (d : IcalDateTime)
  | period (p : Period)
  deriving DecidableEq, Repr

/-- `property::DateTimeOrDuration`. -/
inductive DateTimeOrDuration where
  | dateTime (d : IcalDateTime)
  | duration (d : Duration)
  deriving DecidableEq, Repr

/-- `url::Url`, an external crate: modelled as the raw string, with
`parse` accepting every input (no claim depends on URL validation). -/
structure Url where
  raw : RStr
  deriving DecidableEq, Repr

def Url.parse (s : RStr) : RRes Url := pure ⟨s⟩

/-- `property::AttachEnum`. -/
inductive AttachEnum where
  | url (u : Url)
  | binary (bytes : List Nat)
  | other (dataType : RStr) (value : RStr)
  deriving DecidableEq, Repr

/-- `property::ClassEnum` (its decode arm is commented out upstream). -/
inductive ClassEnum where
  | publicC | privateC | confidential
  | other (v : RStr)
  deriving DecidableEq, Repr

/-- `property::StatusEnum` (its decode arm is commented out upstream). -/
inductive StatusEnum where
  | cancelled | tentative | confirmed | neesAction | completed | inProgress
  | draft | finalS
  | other (v : RStr)
  deriving DecidableEq, Repr

/-- `property::TransparencyEnum`. -/
inductive TransparencyEnum where
  | opaqueT | tranparent
  | other (v : RStr)
  deriving DecidableEq, Repr

/-- `property::RequestStatus`. -/
structure RequestStatus where
  code : Nat
  description : RStr
  data : RStr
  deriving DecidableEq, Repr

/-- The payload of the dead `Geo` variant (`f64` pair; never built by the
decoder, whose `GEO` arm is commented out). -/
structure GeoPair where
  lat : Float
  lon : Float

/-- `property::PropertyValue<T>`. -/
structure PropertyValue (T : Type) where
  value : T
  parameters : ParameterSet

/-- `property::Property`, the typed property enum. -/
inductive Property where
  | attach (v : PropertyValue AttachEnum)
  | categories (v : PropertyValue (List RStr))
  | classP (v : PropertyValue ClassEnum)
  | comment (v : PropertyValue RStr)
  | description (v : PropertyValue RStr)
  | geo (v : PropertyValue GeoPair)
  | location (v : PropertyValue RStr)
  | percentComplete (v : PropertyValue Nat)
  | priority (v : PropertyValue Nat)
  | resources (v : PropertyValue (List RStr))
  | status (v : PropertyValue StatusEnum)
  | summary (v : PropertyValue RStr)
  | completed (v : PropertyValue DateTimeUtc)
  | endP (v : PropertyValue DateOrDateTime)
  | due (v : PropertyValue DateOrDateTime)
  | start (v : PropertyValue DateOrDateTime)
  | duration (v : PropertyValue Duration)
  | freeBusyTime (v : PropertyValue (List Period))
  | transparency (v : PropertyValue TransparencyEnum)
  | timeZoneID (v : PropertyValue RStr)
  | timeZoneName (v : PropertyValue RStr)
  | timeZoneOffsetFrom (v : PropertyValue FixedOffset)
  | timeZoneOffsetTo (v : PropertyValue FixedOffset)
  | timeZoneURL (v : PropertyValue Url)
  | attendee (v : PropertyValue Url)
  | contact (v : PropertyValue RStr)
  | organizer (v : PropertyValue Url)
  | recurrenceID (v : PropertyValue DateOrDateTime)
  | relatedTo (v : PropertyValue RStr)
  | urlP (v : PropertyValue Url)
  | uid (v : PropertyValue RStr)
  | exceptionDateTimes (v : PropertyValue DateOrDateTime)
  | recurrenceDateTimes (v : PropertyValue DateDateTimeOrPeriod)
  | recurrenceRule (v : PropertyValue RecurRule)
  | action (v : PropertyValue RStr)
  | repeatP (v : PropertyValue Nat)
  | trigger (v : PropertyValue DateTimeOrDuration)
  | created (v : PropertyValue DateTimeUtc)
  | dateTimeStamp (v : PropertyValue DateTimeUtc)
  | lastModified (v : PropertyValue DateTimeUtc)
  | sequenceNumber (v : PropertyValue Nat)
  | requestStatus (v : PropertyValue RequestStatus)
  | productIdentifier (v : PropertyValue RStr)
  | version (v : PropertyValue RStr)
  | other (name : RStr) (v : PropertyValue RStr)

/-! ## Value parsing (`property.rs`) -/

/-- `DateOrDateTime::parse_from`. -/
def DateOrDateTime.parseFrom (value : RStr) (params : ParameterSet) : RRes DateOrDateTime :=
  if containsChar 'T' value then
    if endsWith (rstr "Z") value then
      (ofOptErr (rstr "invalid UTC datetime") (parseNaiveDateTime true value)).map
        fun d => .dateTime (.utc d.secs)
    else
      match params.getTzid with
      | some tzid =>
        (ofOptErr (rstr "invalid datetime") (parseNaiveDateTime false value)).map
          fun d => .dateTime (.tz d tzid)
      | none =>
        (ofOptErr (rstr "invalid datetime") (parseNaiveDateTime false value)).map
          fun d => .dateTime (.local d)
  else
    (ofOptErr (rstr "invalid date") (parseNaiveDate value)).map fun d => .date d

/-- `IcalDateTime::sub`.  Instead of a `&VCalendar` the model takes the
calendar's `get_time` as an optional function (`None` in Rust becomes
`none` here).  The generic path reproduces the source faithfully,
including the slip of resolving `self` (not `other`) for a zoned
right-hand side. -/
def IcalDateTime.sub (self other : IcalDateTime)
    (getTime : Option (IcalDateTime → RRes DateTimeFO)) : RRes Duration :=
  let fast : Option Duration :=
    match self, other with
    | .local l, .local r => some (l.sub r)
    | .utc l, .utc r => some (l - r)
    | .tz l ltz, .tz r rtz => if ltz = rtz then some (l.sub r) else none
    | _, _ => none
  match fast with
  | some d => pure d
  | none => do
    let cal ← ofOptErr (rstr "Mismatched IcalDateTime") getTime
    let left : DateTimeFO ←
      match self with
      | .utc t => pure ⟨t, 0⟩
      | .tz _ _ => cal self
      | .local _ => throw (rstr "Mismatched IcalDateTime")
    let right : DateTimeFO ←
      match other with
      | .utc t => pure ⟨t, 0⟩
      | .tz _ _ => cal self
      | .local _ => throw (rstr "Mismatched IcalDateTime")
    pure (left.instant - right.instant)

/-! ### The duration regex in `Period::parse_from`

`Regex::new("(-?P)(?:T?([0-9]+)([WDHMS]))+")` with `captures`: the
leftmost match wins, and for the repeated group only the final
repetition's captures are reported (the `regex` crate's semantics). -/

/-- One repetition `T?([0-9]+)([WDHMS])` at the head of the input. -/
def durRep (cs : RStr) : Option (RStr × Char × RStr) :=
  let attempt : RStr → Option (RStr × Char × RStr) := fun cs =>
    let digits := cs.takeWhile fun c => '0' ≤ c ∧ c ≤ '9'
    if digits = [] then none
    else
      match cs.drop digits.length with
      | u :: rest =>
        if u = 'W' ∨ u = 'D' ∨ u = 'H' ∨ u = 'M' ∨ u = 'S' then some (digits, u, rest)
        else none
      | [] => none
  match cs with
  | 'T' :: rest =>
    -- greedy `T?`; backtracking to the un-consumed `T` cannot succeed
    -- because `T` is not a digit.
    attempt rest
  | _ => attempt cs

/-- Greedily match further repetitions, keeping the last one's captures. -/
def durRepsLoop (lastD : RStr) (lastU : Char) : Nat → RStr → RStr × Char
  | 0, _ => (lastD, lastU)
  | fuel + 1, cs =>
    match durRep cs with
    | some (d, u, rest) => durRepsLoop d u fuel rest
    | none => (lastD, lastU)

/-- Try to match the whole pattern at this exact position. -/
def matchDurAt (cs : RStr) : Option (Bool × RStr × Char) :=
  let afterP : Option (Bool × RStr) :=
    match cs with
    | '-' :: 'P' :: rest => some (true, rest)
    | 'P' :: rest => some (false, rest)
    | _ => none
  afterP.bind fun (neg, rest) =>
    (durRep rest).map fun (d, u, rest2) =>
      let (ld, lu) := durRepsLoop d u rest2.length rest2
      (neg, ld, lu)

/-- `Regex::captures`: first position at which the pattern matches. -/
def findDurMatch : RStr → Option (Bool × RStr × Char)
  | [] => none
  | cs@(_ :: rest) =>
    match matchDurAt cs with
    | some r => some r
    | none => findDurMatch rest

/-- `Period::parse_from`.  (The `println!` in the source is output
only.) -/
def Period.parseFrom (value : RStr) (params : ParameterSet) : RRes Period := do
  let (startS, endS) ← ofOptErr (rstr "invalid period") (splitOnceChar '/' value)
  let start ←
    match ← DateOrDateTime.parseFrom startS params with
    | .date _ => throw (rstr "Invalid start time in period")
    | .dateTime d => pure d
  match findDurMatch endS with
  | some (neg, digits, unit) => do
    -- `digits.as_str().parse::<i64>()?`
    let durationValue ← ofOptErr (rstr "invalid digit")
      (parseSigned (-(2 ^ 63)) (2 ^ 63 - 1) digits)
    let durationPart : Duration ←
      if unit = 'W' then pure (Duration.weeks durationValue)
      else if unit = 'D' then pure (Duration.days' durationValue)
      else if unit = 'H' then pure (Duration.hours' durationValue)
      else if unit = 'M' then pure (Duration.minutes' durationValue)
      else if unit = 'S' then pure (Duration.seconds' durationValue)
      else throw (rstr "invalid period duration")
    -- `duration = duration_part + duration` starting from 0 seconds,
    -- over the single reported (digits, unit) pair.
    let duration := durationPart + Duration.seconds' 0
    let duration := if neg then duration * -1 else duration
    pure ⟨start, duration⟩
  | none => do
    let endD ←
      match ← DateOrDateTime.parseFrom endS params with
      | .date _ => throw (rstr "Invalid start time in period")
      | .dateTime d => pure d
    let duration ← endD.sub start none
    pure ⟨start, duration⟩

/-- `DateDateTimeOrPeriod::parse_from`. -/
def DateDateTimeOrPeriod.parseFrom (value : RStr) (params : ParameterSet) :
    RRes DateDateTimeOrPeriod :=
  ExceptT.mk do
    match (Period.parseFrom value params).run with
    | some (.ok p) => pure (.ok (.period p))
    | some (.error _) =>
      -- `if let Ok(period) = ... else` falls back to `DateOrDateTime`.
      (DateOrDateTime.parseFrom value params).run.map fun r =>
        r.map fun
          | .date d => DateDateTimeOrPeriod.date d
          | .dateTime d => DateDateTimeOrPeriod.dateTime d
    | none => (none : Option (Except RStr DateDateTimeOrPeriod))

/-- `parse_offset` (`TZOFFSETFROM`/`TZOFFSETTO` values).  The sign and
length check, then `value[1..3]` as hours and `value[3..]` added as raw
seconds; `FixedOffset::east`/`west` panic out of bounds. -/
def parse_offset (value : RStr) : RRes FixedOffset := do
  let startsSign := match value with | '+' :: _ => true | '-' :: _ => true | _ => false
  if ¬ (startsSign = true) ∨ value.length ≠ 5 then
    throw (rstr "Invalid TZOFFSETFROM prop: " ++ value)
  else do
    let hours ← ofOptErr (rstr "invalid digit")
      (parseSigned (-(2 ^ 31)) (2 ^ 31 - 1) ((value.drop 1).take 2))
    let seconds ← ofOptErr (rstr "invalid digit")
      (parseSigned (-(2 ^ 31)) (2 ^ 31 - 1) (value.drop 3))
    if value.take 1 = ['+'] then
      ofPanicking (FixedOffset.eastOpt (hours * 60 * 60 + seconds))
    else
      ofPanicking (FixedOffset.westOpt (hours * 60 * 60 + seconds))

/-- Rust `str::trim` (ASCII whitespace suffices for this crate). -/
def trimAscii (s : RStr) : RStr :=
  let ws : Char → Bool := fun c => c = ' ' ∨ c = '\t' ∨ c = '\n' ∨ c = '\r'
  ((s.dropWhile ws).reverse.dropWhile ws).reverse

/-- Models `base64::decode` (standard alphabet with `=` padding). -/
def base64Val (c : Char) : Option Nat :=
  if 'A' ≤ c ∧ c ≤ 'Z' then some (c.toNat - 'A'.toNat)
  else if 'a' ≤ c ∧ c ≤ 'z' then some (c.toNat - 'a'.toNat + 26)
  else if '0' ≤ c ∧ c ≤ '9' then some (c.toNat - '0'.toNat + 52)
  else if c = '+' then some 62
  else if c = '/' then some 63
  else none

def base64Decode : RStr → Option (List Nat)
  | [] => some []
  | [a, b, '=', '='] => do
    let va ← base64Val a; let vb ← base64Val b
    if vb % 16 = 0 then some [va * 4 + vb / 16] else none
  | [a, b, c, '='] => do
    let va ← base64Val a; let vb ← base64Val b; let vc ← base64Val c
    if vc % 4 = 0 then some [va * 4 + vb / 16, vb % 16 * 16 + vc / 4] else none
  | a :: b :: c :: d :: rest => do
    let va ← base64Val a; let vb ← base64Val b
    let vc ← base64Val c; let vd ← base64Val d
    let tail ← base64Decode rest
    some ([va * 4 + vb / 16, vb % 16 * 16 + vc / 4, vc % 4 * 64 + vd] ++ tail)
  | _ => none

/-- `impl TryFrom<parser::Property> for Property` — the property decoder.
Unrecognized names fall through to `Other(property.name, raw value)`. -/
def Property.tryFrom (property : RawProperty) : RRes Property := do
  let parameters ← ofPanicking (ParameterSet.ofRaw property.parameters)
  let nameU := upperAscii property.name
  if nameU = rstr "ATTACH" then
    match parameters.getValueDataType with
    | some dataType =>
      let dtU := upperAscii dataType
      if dtU = rstr "BINARY" then
        if parameters.getEncoding ≠ some (rstr "BASE64") then
          throw (rstr "Unknown encoding for binary attach property")
        else do
          let value ← ofOptErr (rstr "invalid base64") (base64Decode property.value)
          pure (.attach ⟨.binary value, parameters⟩)
      else if dtU = rstr "URI" then do
        let u ← Url.parse property.value
        pure (.attach ⟨.url u, parameters⟩)
      else
        pure (.attach ⟨.other dtU property.value, parameters⟩)
    | none => do
      let u ← Url.parse property.value
      pure (.attach ⟨.url u, parameters⟩)
  else if nameU = rstr "CATEGORIES" then do
    let vs ← (splitChar ',' property.value).mapM fun s => ofExcept (unescape (trimAscii s))
    pure (.categories ⟨vs, parameters⟩)
  else if nameU = rstr "COMMENT" then do
    pure (.comment ⟨← ofExcept (unescape property.value), parameters⟩)
  else if nameU = rstr "DESCRIPTION" then do
    pure (.description ⟨← ofExcept (unescape property.value), parameters⟩)
  else if nameU = rstr "LOCATION" then do
    pure (.location ⟨← ofExcept (unescape property.value), parameters⟩)
  else if nameU = rstr "PERCENT-COMPLETE" then do
    let n ← ofOptErr (rstr "invalid digit") (parseUnsigned (2 ^ 32 - 1) property.value)
    pure (.percentComplete ⟨n, parameters⟩)
  else if nameU = rstr "PRIORITY" then do
    let n ← ofOptErr (rstr "invalid digit") (parseUnsigned (2 ^ 32 - 1) property.value)
    pure (.priority ⟨n, parameters⟩)
  else if nameU = rstr "RESOURCES" then do
    let vs ← (splitChar ',' property.value).mapM fun s => ofExcept (unescape (trimAscii s))
    pure (.resources ⟨vs, parameters⟩)
  else if nameU = rstr "SUMMARY" then do
    pure (.summary ⟨← ofExcept (unescape property.value), parameters⟩)
  else if nameU = rstr "DTEND" then do
    pure (.endP ⟨← DateOrDateTime.parseFrom property.value parameters, parameters⟩)
  else if nameU = rstr "DUE" then do
    pure (.due ⟨← DateOrDateTime.parseFrom property.value parameters, parameters⟩)
  else if nameU = rstr "DTSTART" then do
    pure (.start ⟨← DateOrDateTime.parseFrom property.value parameters, parameters⟩)
  else if nameU = rstr "TRANSP" then
    let vU := upperAscii property.value
    let v : TransparencyEnum :=
      if vU = rstr "OPAQUE" then .opaqueT
      else if vU = rstr "TRANSPARENT" then .tranparent
      else .other property.value
    pure (.transparency ⟨v, parameters⟩)
  else if nameU = rstr "TZID" then do
    pure (.timeZoneID ⟨← ofExcept (unescape property.value), parameters⟩)
  else if nameU = rstr "TZNAME" then do
    pure (.timeZoneName ⟨← ofExcept (unescape property.value), parameters⟩)
  else if nameU = rstr "TZOFFSETFROM" then do
    pure (.timeZoneOffsetFrom ⟨← parse_offset property.value, parameters⟩)
  else if nameU = rstr "TZOFFSETTO" then do
    pure (.timeZoneOffsetTo ⟨← parse_offset property.value, parameters⟩)
  else if nameU = rstr "TZURL" then do
    pure (.timeZoneURL ⟨← Url.parse property.value, parameters⟩)
  else if nameU = rstr "ATTENDEE" then do
    pure (.attendee ⟨← Url.parse property.value, parameters⟩)
  else if nameU = rstr "CONTACT" then do
    pure (.contact ⟨← ofExcept (unescape property.value), parameters⟩)
  else if nameU = rstr "ORGANIZER" then do
    pure (.organizer ⟨← Url.parse property.value, parameters⟩)
  else if nameU = rstr "RECURRENCE-ID" then do
    pure (.recurrenceID ⟨← DateOrDateTime.parseFrom property.value parameters, parameters⟩)
  else if nameU = rstr "RELATED-TO" then do
    pure (.relatedTo ⟨← ofExcept (unescape property.value), parameters⟩)
  else if nameU = rstr "URL" then do
    pure (.urlP ⟨← Url.parse property.value, parameters⟩)
  else if nameU = rstr "UID" then do
    pure (.uid ⟨← ofExcept (unescape property.value), parameters⟩)
  else if nameU = rstr "EXDATE" then do
    pure (.exceptionDateTimes ⟨← DateOrDateTime.parseFrom property.value parameters, parameters⟩)
  else if nameU = rstr "RDATE" then do
    pure (.recurrenceDateTimes ⟨← DateDateTimeOrPeriod.parseFrom property.value parameters,
      parameters⟩)
  else if nameU = rstr "RRULE" then do
    pure (.recurrenceRule ⟨← RecurRule.fromStr property.value, parameters⟩)
  else if nameU = rstr "ACTION" then do
    pure (.action ⟨← ofExcept (unescape property.value), parameters⟩)
  else if nameU = rstr "REPEAT" then do
    let n ← ofOptErr (rstr "invalid digit") (parseUnsigned (2 ^ 32 - 1) property.value)
    pure (.repeatP ⟨n, parameters⟩)
  else if nameU = rstr "CREATED" then do
    let date ← DateOrDateTime.parseFrom property.value parameters
    match date with
    | .dateTime (.utc d) => pure (.created ⟨d, parameters⟩)
    | _ => throw (rstr "CREATED must be UTC")
  else if nameU = rstr "DTSTAMP" then do
    let date ← DateOrDateTime.parseFrom property.value parameters
    match date with
    | .dateTime (.utc d) => pure (.dateTimeStamp ⟨d, parameters⟩)
    | _ => throw (rstr "DTSTAMP must be UTC")
  else if nameU = rstr "SEQUENCE" then do
    let n ← ofOptErr (rstr "invalid digit") (parseUnsigned (2 ^ 32 - 1) property.value)
    pure (.sequenceNumber ⟨n, parameters⟩)
  else if nameU = rstr "PRODID" then
    -- `property.value.parse::<String>()` is infallible.
    pure (.productIdentifier ⟨property.value, parameters⟩)
  else if nameU = rstr "VERSION" then
    pure (.version ⟨property.value, parameters⟩)
  else
    pure (.other property.name ⟨property.value, parameters⟩)

/-- The property names with an active decode arm (every other name falls
through to `Other`). -/
def recognizedNames : List RStr :=
  [rstr "ATTACH", rstr "CATEGORIES", rstr "COMMENT", rstr "DESCRIPTION",
   rstr "LOCATION", rstr "PERCENT-COMPLETE", rstr "PRIORITY", rstr "RESOURCES",
   rstr "SUMMARY", rstr "DTEND", rstr "DUE", rstr "DTSTART", rstr "TRANSP",
   rstr "TZID", rstr "TZNAME", rstr "TZOFFSETFROM", rstr "TZOFFSETTO",
   rstr "TZURL", rstr "ATTENDEE", rstr "CONTACT", rstr "ORGANIZER",
   rstr "RECURRENCE-ID", rstr "RELATED-TO", rstr "URL", rstr "UID",
   rstr "EXDATE", rstr "RDATE", rstr "RRULE", rstr "ACTION", rstr "REPEAT",
   rstr "CREATED", rstr "DTSTAMP", rstr "SEQUENCE", rstr "PRODID",
   rstr "VERSION"]

/-! ## Components (`components.rs`) -/

/-- `components::OffsetRule` (a `STANDARD`/`DAYLIGHT` block). -/
structure OffsetRule where
  offset_from : FixedOffset
  offset_to : FixedOffset
  start : NaiveDateTime
  recur : Option RecurRule
  name : Option RStr
  rdates : List NaiveDateTime
  exdates : List NaiveDateTime
  properties : List Property

/-- `impl TryFrom<parser::Component> for OffsetRule`. -/
def OffsetRule.tryFrom (component : Component) : RRes OffsetRule := do
  let nameU := upperAscii component.name
  if ¬ (nameU = rstr "DAYLIGHT" ∨ nameU = rstr "STANDARD") then
    throw (rstr "ensure failed: not DAYLIGHT or STANDARD")
  else if ¬ component.subComponents.isEmpty then
    throw (rstr "Neither DAYLIGHT nor STANDARD can have sub components")
  else do
    let mut offsetFrom : Option FixedOffset := none
    let mut offsetTo : Option FixedOffset := none
    let mut start : Option NaiveDateTime := none
    let mut recur : Option RecurRule := none
    let mut name : Option RStr := none
    let mut rdates : List NaiveDateTime := []
    let mut exdates : List NaiveDateTime := []
    let mut properties : List Property := []
    for prop in component.properties do
      let parsed ← Property.tryFrom prop
      match parsed with
      | .timeZoneOffsetFrom v => offsetFrom := some v.value
      | .timeZoneOffsetTo v => offsetTo := some v.value
      | .start v =>
        match v.value with
        | .dateTime (.local datetime) => start := some datetime
        | _ => throw (rstr "Invalid timezone start time, must be local time")
      | .recurrenceRule v => recur := some v.value
      | .timeZoneName v => name := some v.value
      | .recurrenceDateTimes v =>
        match v.value with
        | .dateTime (.local d) => rdates := rdates ++ [d]
        | _ => throw (rstr "Unexpected type for RDATE in " ++ nameU)
      | .exceptionDateTimes v =>
        match v.value with
        | .dateTime (.local d) => exdates := exdates ++ [d]
        | _ => throw (rstr "Unexpected type for EXDATE in " ++ nameU)
      | p => properties := properties ++ [p]
    let offsetFromV ← ofOptErr (rstr "Missing TZOFFSETFROM field in offset rule") offsetFrom
    let offsetToV ← ofOptErr (rstr "Missing TZOFFSETTO field in offset rule") offsetTo
    let startV ← ofOptErr (rstr "Missing DTSTART field in offset rule") start
    pure ⟨offsetFromV, offsetToV, startV, recur, name, rdates, exdates, properties⟩

/-- `components::VTimeZone`. -/
structure VTimeZone where
  id : RStr
  standard : List OffsetRule
  daylight : List OffsetRule
  properties : List Property

/-- `impl TryFrom<parser::Component> for VTimeZone`. -/
def VTimeZone.tryFrom (component : Component) : RRes VTimeZone := do
  if upperAscii component.name ≠ rstr "VTIMEZONE" then
    throw (rstr "ensure failed: not VTIMEZONE")
  else do
    let mut standard : List OffsetRule := []
    let mut daylight : List OffsetRule := []
    for sub in component.subComponents do
      let subNameU := upperAscii sub.name
      if subNameU = rstr "STANDARD" then
        standard := standard ++ [← OffsetRule.tryFrom sub]
      else if subNameU = rstr "DAYLIGHT" then
        daylight := daylight ++ [← OffsetRule.tryFrom sub]
      else pure ()
    if standard.isEmpty ∧ daylight.isEmpty then
      throw (rstr "VTIMEZONE must have one of DAYLIGHT or STANDARD components")
    else do
      let mut id : Option RStr := none
      let mut properties : List Property := []
      for prop in component.properties do
        let parsed ← Property.tryFrom prop
        match parsed with
        | .timeZoneID v => id := some v.value
        | p => properties := properties ++ [p]
      let idV ← ofOptErr (rstr "Missing TZID field in offset rule") id
      pure ⟨idV, standard, daylight, properties⟩

/-- Adjacent pairs (`slice::windows(2)`). -/
def windowsPairs : List α → List (α × α)
  | a :: b :: rest => (a, b) :: windowsPairs (b :: rest)
  | _ => []

/-- The `for slice in slice.windows(2)` search of `get_effective_offset`
(with `continue` when the rule's `UntilUtc` bound is exceeded). -/
def effectiveWindowSearch (date : NaiveDateTime) (localDir : Bool) :
    List (OffsetRule × OffsetRule) → Option OffsetRule
  | [] => none
  | (fromR, upto) :: rest =>
    let dateAdj := if localDir then date else date.addDur fromR.offset_from
    if fromR.start ≤ dateAdj ∧ dateAdj < upto.start then
      let skip : Bool :=
        match fromR.recur with
        | some recur =>
          match recur.end_condition with
          | .untilUtc u =>
            let offsetTime := FixedOffset.fromLocalDatetime fromR.offset_from dateAdj
            decide (u < offsetTime.instant)
          | _ => false
        | none => false
      if skip then effectiveWindowSearch date localDir rest else some fromR
    else effectiveWindowSearch date localDir rest

/-- `get_effective_offset`. -/
def getEffectiveOffset (slice : List OffsetRule) (date : NaiveDateTime) (localDir : Bool) :
    Option OffsetRule :=
  let effective := effectiveWindowSearch date localDir (windowsPairs slice)
  match effective with
  | some e => some e
  | none =>
    match slice.getLast? with
    | none => none
    | some lastR =>
      let dateAdj := if localDir then date else date.addDur lastR.offset_from
      if lastR.start ≤ dateAdj then
        match lastR.recur with
        | some recur =>
          match recur.end_condition with
          | .untilUtc u =>
            let offsetTime := FixedOffset.fromLocalDatetime lastR.offset_from dateAdj
            if u < offsetTime.instant then none else some lastR
          | _ => some lastR
        | none => some lastR
      else none

/-- `rule.take_while(|d| d <= bound).last().unwrap_or(start)` over a
collected prefix of the recurrence. -/
def lastNotAfter (bound : NaiveDateTime) (start : NaiveDateTime)
    (dates : List NaiveDateTime) : NaiveDateTime :=
  ((dates.takeWhile fun d => decide (d ≤ bound)).getLast?).getD start

/-- `VTimeZone::get_offset`.  `none` models the `panic!("invalid
timezone")` (or an internal panic); `fuel` bounds the lazy recurrence
walks. -/
def VTimeZone.getOffset (tz : VTimeZone) (fuel : Nat) (date : NaiveDateTime)
    (localDir : Bool) : Option FixedOffset :=
  let effectiveStandard := getEffectiveOffset tz.standard date localDir
  let effectiveDaylight := getEffectiveOffset tz.daylight date localDir
  match effectiveStandard, effectiveDaylight with
  | some standard, some daylight => do
    let lastStandardBefore ←
      match standard.recur with
      | some recur => do
        let bound := if localDir then date else date.addDur standard.offset_from
        let dates ← recur.fromDateWithExtras NaiveDateTime.expandable
          (idToNaive NaiveDateTime.expandable) (fun d ex2 => d = ex2)
          standard.start standard.rdates standard.exdates
          (FixedOffset.offseter standard.offset_from) fuel fuel
        pure (lastNotAfter bound standard.start dates)
      | none => pure standard.start
    let lastDaylightBefore ←
      match daylight.recur with
      | some recur => do
        let bound := if localDir then date else date.addDur daylight.offset_from
        let st ← recur.fromDate daylight.start (FixedOffset.offseter daylight.offset_from)
        let dates := RecurIter.collect NaiveDateTime.expandable fuel st fuel
        pure (lastNotAfter bound daylight.start dates)
      | none => pure daylight.start
    if lastDaylightBefore < lastStandardBefore then
      pure standard.offset_to
    else
      pure daylight.offset_to
  | some standard, none => some standard.offset_to
  | none, some daylight => some daylight.offset_to
  | none, none => none

/-- `impl Offseter for VTimeZone`: `to_instance`. -/
def VTimeZone.toInstance (tz : VTimeZone) (fuel : Nat) (d : NaiveDateTime) :
    Option DateTimeFO :=
  (tz.getOffset fuel d true).map fun off => FixedOffset.fromLocalDatetime off d

/-- `impl Offseter for VTimeZone`: `from_instance`. -/
def VTimeZone.fromInstance (tz : VTimeZone) (fuel : Nat) (d : DateTimeFO) :
    Option NaiveDateTime :=
  (tz.getOffset fuel d.naiveUtc false).map fun off => d.naiveUtc.addDur off

def VTimeZone.offseter (tz : VTimeZone) (fuel : Nat) : Offseter :=
  ⟨tz.toInstance fuel, tz.fromInstance fuel⟩

/-! ### Event timings -/

/-- `property::ToNaivePeriod<T>`. -/
structure ToNaivePeriod (τ : Type) where
  duration : Duration
  start : τ
  deriving DecidableEq, Repr

/-- `components::TimingsInner<T, E>`. -/
structure TimingsInner (T : Type) (E : Type) where
  start : T
  exdates : List E
  rdates : List T
  recur_id : Option E

/-- `components::Timings` (the eight shapes). -/
inductive Timings where
  | date (inner : TimingsInner NaiveDate NaiveDate)
  | localT (inner : TimingsInner NaiveDateTime NaiveDateTime)
  | utc (inner : TimingsInner DateTimeUtc DateTimeUtc)
  | tz (tzid : RStr) (inner : TimingsInner NaiveDateTime NaiveDateTime)
  | perioidDate (inner : TimingsInner (ToNaivePeriod NaiveDate) NaiveDate)
  | perioidLocal (inner : TimingsInner (ToNaivePeriod NaiveDateTime) NaiveDateTime)
  | perioidUtc (inner : TimingsInner (ToNaivePeriod DateTimeUtc) DateTimeUtc)
  | perioidTz (tzid : RStr) (inner : TimingsInner (ToNaivePeriod NaiveDateTime) NaiveDateTime)

/-- `components::VEvent`. -/
structure VEvent where
  uid : RStr
  dtstamp : DateTimeUtc
  summary : Option RStr
  description : Option RStr
  location : Option RStr
  sequence : Option Nat
  recur : Option RecurRule
  timings : Option Timings
  is_recurrence_instance : Bool
  properties : List Property

/-! ### The `TryFrom` conversions used when building timings -/

/-- `TryFrom<DateOrDateTime> for NaiveDate`. -/
def DateOrDateTime.tryToNaiveDate : DateOrDateTime → RRes NaiveDate
  | .date d => pure d
  | _ => throw (rstr "Not a date")

/-- `TryFrom<DateOrDateTime> for NaiveDateTime`. -/
def DateOrDateTime.tryToNaiveDateTime : DateOrDateTime → RRes NaiveDateTime
  | .dateTime (.local d) => pure d
  | _ => throw (rstr "Not a date")

/-- `TryFrom<DateOrDateTime> for DateTime<Utc>`. -/
def DateOrDateTime.tryToUtc : DateOrDateTime → RRes DateTimeUtc
  | .dateTime (.utc d) => pure d
  | _ => throw (rstr "Not a date")

/-- `TryFrom<DateDateTimeOrPeriod> for NaiveDate`. -/
def DateDateTimeOrPeriod.tryToNaiveDate : DateDateTimeOrPeriod → RRes NaiveDate
  | .date d => pure d
  | _ => throw (rstr "Not a date")

/-- `TryFrom<DateDateTimeOrPeriod> for NaiveDateTime`. -/
def DateDateTimeOrPeriod.tryToNaiveDateTime : DateDateTimeOrPeriod → RRes NaiveDateTime
  | .dateTime (.local d) => pure d
  | _ => throw (rstr "Not a date")

/-- `TryFrom<DateDateTimeOrPeriod> for DateTime<Utc>`. -/
def DateDateTimeOrPeriod.tryToUtc : DateDateTimeOrPeriod → RRes DateTimeUtc
  | .dateTime (.utc d) => pure d
  | _ => throw (rstr "Not a date")

/-- `try_to_dates` (generic over the `TryFrom` conversion). -/
def tryToDates {D : Type} (conv : DateOrDateTime → RRes D) (vec : List DateOrDateTime) :
    RRes (List D) :=
  vec.mapM conv

/-- `try_tz_to_dates`. -/
def tryTzToDates (expectedTzid : RStr) (vec : List DateOrDateTime) :
    RRes (List NaiveDateTime) :=
  vec.mapM fun d =>
    match d with
    | .dateTime (.tz date tzid) =>
      if tzid ≠ expectedTzid then throw (rstr "TZ mismatch") else pure date
    | _ => throw (rstr "DateTime mismatch")

/-- `try_period_tz_to_dates`. -/
def tryPeriodTzToDates (expectedTzid : RStr) (vec : List DateDateTimeOrPeriod) :
    RRes (List NaiveDateTime) :=
  vec.mapM fun d =>
    match d with
    | .dateTime (.tz date tzid) =>
      if tzid ≠ expectedTzid then throw (rstr "TZ mismatch") else pure date
    | _ => throw (rstr "DateTime mismatch")

/-- `try_from_period_to_dates`. -/
def tryFromPeriodToDates {D : Type} (conv : DateDateTimeOrPeriod → RRes D)
    (vec : List DateDateTimeOrPeriod) : RRes (List D) :=
  vec.mapM conv

/-- `try_from_period_to_periods`. -/
def tryFromPeriodToPeriods {D : Type} (conv : DateDateTimeOrPeriod → RRes D)
    (duration : Duration) (vec : List DateDateTimeOrPeriod) :
    RRes (List (ToNaivePeriod D)) :=
  vec.mapM fun d =>
    match d with
    | .period period => do
      let s ← conv (.dateTime period.start)
      pure ⟨period.duration, s⟩
    | _ => do
      let s ← conv d
      pure ⟨duration, s⟩

/-- `try_tz_from_period_to_periods`. -/
def tryTzFromPeriodToPeriods (duration : Duration) (expectedTzid : RStr)
    (vec : List DateDateTimeOrPeriod) : RRes (List (ToNaivePeriod NaiveDateTime)) :=
  vec.mapM fun d =>
    match d with
    | .period period =>
      match period.start with
      | .tz date tzid =>
        if tzid ≠ expectedTzid then throw (rstr "TZ mismatch")
        else pure ⟨period.duration, date⟩
      | _ => throw (rstr "DateTime mismatch")
    | .dateTime (.tz date tzid) =>
      if tzid ≠ expectedTzid then throw (rstr "TZ mismatch")
      else pure ⟨duration, date⟩
    | _ => throw (rstr "DateTime mismatch")

/-- `components::EventCollection`.  The `overrides` `HashMap` is
modelled as an insertion-ordered association list (`insert` replaces an
existing key). -/
structure EventCollection where
  base_event : VEvent
  overrides : List (DateOrDateTime × VEvent)

/-- `HashMap::insert`. -/
def hashMapInsert (k : DateOrDateTime) (v : VEvent) (m : List (DateOrDateTime × VEvent)) :
    List (DateOrDateTime × VEvent) :=
  if m.any (fun e => e.1 = k) then m.map (fun e => if e.1 = k then (k, v) else e)
  else m ++ [(k, v)]

/-- Lexicographic order on strings (for the `BTreeMap<String, _>` keyed
by UID). -/
def rstrLt : RStr → RStr → Bool
  | [], [] => false
  | [], _ :: _ => true
  | _ :: _, [] => false
  | a :: as', b :: bs => if a.toNat < b.toNat then true
    else if a.toNat = b.toNat then rstrLt as' bs else false

/-- `components::VCalendar`.  `events` is the `BTreeMap` keyed by UID,
kept sorted. -/
structure VCalendar where
  prodid : RStr
  version : RStr
  events : List (RStr × EventCollection)
  timezones : List VTimeZone
  properties : List Property

/-- `VCalendar::get_time`. -/
def VCalendar.getTime (cal : VCalendar) (fuel : Nat) (date : IcalDateTime) :
    RRes DateTimeFO :=
  match date with
  | .local _ => throw (rstr "Local time")
  | .utc d => pure d.toFO
  | .tz d tzid =>
    match cal.timezones.find? (fun tz => tz.id == tzid) with
    | some tz => ofPanicking (tz.toInstance fuel d)
    | none => throw (rstr "Referenced timezone " ++ tzid ++ rstr " not in calendar")

/-- The mutable state of the `VEvent::try_from_component` property
loop. -/
structure VEventAccum where
  uid : Option RStr := none
  dtstamp : Option DateTimeUtc := none
  recur : Option RecurRule := none
  dtstart : Option DateOrDateTime := none
  rdates : List DateDateTimeOrPeriod := []
  exdates : List DateOrDateTime := []
  duration : Option Duration := none
  dtend : Option DateOrDateTime := none
  recur_id : Option DateOrDateTime := none
  summary : Option RStr := none
  description : Option RStr := none
  location : Option RStr := none
  sequence : Option Nat := none
  properties : List Property := []

/-- One iteration of the `VEvent::try_from_component` property loop. -/
def VEvent.scanProp (acc : VEventAccum) (prop : RawProperty) : RRes VEventAccum := do
  let parsed ← Property.tryFrom prop
  pure (match parsed with
    | .recurrenceRule v => { acc with recur := some v.value }
    | .uid v => { acc with uid := some v.value }
    | .dateTimeStamp v => { acc with dtstamp := some v.value }
    | .start v => { acc with dtstart := some v.value }
    | .recurrenceDateTimes v => { acc with rdates := acc.rdates ++ [v.value] }
    | .exceptionDateTimes v => { acc with exdates := acc.exdates ++ [v.value] }
    | .duration v => { acc with duration := some v.value }
    | .endP v => { acc with dtend := some v.value }
    | .recurrenceID v => { acc with recur_id := some v.value }
    | .summary v => { acc with summary := some v.value }
    | .description v => { acc with description := some v.value }
    | .location v => { acc with location := some v.value }
    | .sequenceNumber v => { acc with sequence := some v.value }
    | p => { acc with properties := acc.properties ++ [p] })

/-- The `DTEND`-into-duration computation of `try_from_component`. -/
def VEvent.resolveDuration (calendar : VCalendar) (fuel : Nat)
    (duration0 : Option Duration) (dtend dtstart : Option DateOrDateTime) :
    RRes (Option Duration) :=
  match dtend with
  | some dtendV =>
    match dtstart with
    | some dtstartV => do
      let d ←
        match dtstartV, dtendV with
        | .date s, .date e => pure (Duration.days' (e.days - s.days))
        | .dateTime s, .dateTime e => e.sub s (some (calendar.getTime fuel))
        | _, _ => throw (rstr "VEVENT has different types for DTSTART and DTEND")
      pure (some d)
    | none => throw (rstr "VEVENT has a DTEND without DTSTART")
  | none => pure duration0

/-- The `RECURRENCE-ID`-to-offset normalization of
`try_from_component`. -/
def VEvent.resolveRecurOffset (calendar : VCalendar) (fuel : Nat)
    (recurId dtstart : Option DateOrDateTime) : RRes (Option Duration) :=
  match recurId with
  | some rid =>
    match dtstart with
    | some dtstartV => do
      let off ←
        match dtstartV, rid with
        | .date s, .date r => pure (Duration.days' (r.days - s.days))
        | .dateTime s, .dateTime r => r.sub s (some (calendar.getTime fuel))
        | _, _ =>
          throw (rstr "VEVENT has different types for DTSTART and RECURRENCE-ID")
      pure (some off)
    | none => throw (rstr "VEVENT has a RECURRENCE-ID without DTSTART")
  | none => pure none

/-- The `timings` construction of `try_from_component` (the eight
shapes). -/
def VEvent.buildTimings (duration : Option Duration) (dtstart : Option DateOrDateTime)
    (rdates : List DateDateTimeOrPeriod) (exdates : List DateOrDateTime)
    (recurOffset : Option Duration) : RRes (Option Timings) :=
  match duration with
  | some durationV =>
    match dtstart with
    | some (.date start) => do
      let ex ← tryToDates DateOrDateTime.tryToNaiveDate exdates
      let rd ← tryFromPeriodToPeriods DateDateTimeOrPeriod.tryToNaiveDate durationV rdates
      pure (some (.perioidDate ⟨⟨durationV, start⟩, ex, rd,
        recurOffset.map (start.addDur ·)⟩))
    | some (.dateTime cal') =>
      match cal' with
      | .local start => do
        let ex ← tryToDates DateOrDateTime.tryToNaiveDateTime exdates
        let rd ← tryFromPeriodToPeriods DateDateTimeOrPeriod.tryToNaiveDateTime
          durationV rdates
        pure (some (.perioidLocal ⟨⟨durationV, start⟩, ex, rd,
          recurOffset.map (start.addDur ·)⟩))
      | .utc start => do
        let ex ← tryToDates DateOrDateTime.tryToUtc exdates
        let rd ← tryFromPeriodToPeriods DateDateTimeOrPeriod.tryToUtc durationV rdates
        pure (some (.perioidUtc ⟨⟨durationV, start⟩, ex, rd,
          recurOffset.map (start + ·)⟩))
      | .tz date tzid => do
        let ex ← tryTzToDates tzid exdates
        let rd ← tryTzFromPeriodToPeriods durationV tzid rdates
        pure (some (.perioidTz tzid ⟨⟨durationV, date⟩, ex, rd,
          recurOffset.map (date.addDur ·)⟩))
    | none => pure none
  | none =>
    match dtstart with
    | some (.date start) => do
      let ex ← tryToDates DateOrDateTime.tryToNaiveDate exdates
      let rd ← tryFromPeriodToDates DateDateTimeOrPeriod.tryToNaiveDate rdates
      pure (some (.date ⟨start, ex, rd, recurOffset.map (start.addDur ·)⟩))
    | some (.dateTime cal') =>
      match cal' with
      | .local start => do
        let ex ← tryToDates DateOrDateTime.tryToNaiveDateTime exdates
        let rd ← tryFromPeriodToDates DateDateTimeOrPeriod.tryToNaiveDateTime rdates
        pure (some (.localT ⟨start, ex, rd, recurOffset.map (start.addDur ·)⟩))
      | .utc start => do
        let ex ← tryToDates DateOrDateTime.tryToUtc exdates
        let rd ← tryFromPeriodToDates DateDateTimeOrPeriod.tryToUtc rdates
        pure (some (.utc ⟨start, ex, rd, recurOffset.map (start + ·)⟩))
      | .tz date tzid => do
        let ex ← tryTzToDates tzid exdates
        let rd ← tryPeriodTzToDates tzid rdates
        pure (some (.tz tzid ⟨date, ex, rd, recurOffset.map (date.addDur ·)⟩))
    | none => pure none

/-- The tail of `VEvent::try_from_component` after the property loop:
required-field checks, duration/offset resolution, and the final event
record. -/
def VEvent.assemble (calendar : VCalendar) (fuel : Nat) (acc : VEventAccum) :
    RRes VEvent := do
  let uidV ← ofOptErr (rstr "Missing UID field in offset rule") acc.uid
  if acc.duration.isSome ∧ acc.dtend.isSome then
    throw (rstr "VEVENT has both DURATION and DTEND")
  else do
    let duration ← VEvent.resolveDuration calendar fuel acc.duration acc.dtend acc.dtstart
    let is_recurrence_instance := acc.recur_id.isSome
    let recurOffset ← VEvent.resolveRecurOffset calendar fuel acc.recur_id acc.dtstart
    let timings ← VEvent.buildTimings duration acc.dtstart acc.rdates acc.exdates recurOffset
    let dtstampV ← ofOptErr (rstr "Missing DTSTAMP field in offset rule") acc.dtstamp
    pure ⟨uidV, dtstampV, acc.summary, acc.description, acc.location, acc.sequence,
      acc.recur, timings, is_recurrence_instance, acc.properties⟩

/-- `VEvent::try_from_component`. -/
def VEvent.tryFromComponent (component : Component) (calendar : VCalendar)
    (fuel : Nat) : RRes VEvent := do
  if upperAscii component.name ≠ rstr "VEVENT" then
    throw (rstr "ensure failed: not VEVENT")
  else do
    let acc ← component.properties.foldlM VEvent.scanProp {}
    VEvent.assemble calendar fuel acc

/-- `EventCollection::new`.  The `todo!()` arms for `Local` timings are
panics. -/
def EventCollection.new (events : List VEvent) : RRes EventCollection := do
  let mut baseEvent : Option VEvent := none
  let mut overrides : List (DateOrDateTime × VEvent) := []
  let eventId : RStr := ((events.head?.map (·.uid)).getD [])
  for event in events do
    if ¬ event.is_recurrence_instance then
      baseEvent := some event
    else
      match event.timings with
      | some timings =>
        let date : Option DateOrDateTime ←
          match timings with
          | .date d => pure (d.recur_id.map DateOrDateTime.date)
          | .localT _ => rpanic
          | .utc d => pure (d.recur_id.map fun x => .dateTime (.utc x))
          | .tz tzid inner => pure (inner.recur_id.map fun x => .dateTime (.tz x tzid))
          | .perioidDate d => pure (d.recur_id.map DateOrDateTime.date)
          | .perioidLocal _ => rpanic
          | .perioidUtc d => pure (d.recur_id.map fun x => .dateTime (.utc x))
          | .perioidTz tzid inner => pure (inner.recur_id.map fun x => .dateTime (.tz x tzid))
        match date with
        | some d => overrides := hashMapInsert d event overrides
        | none => pure ()
      | none => pure ()
  let baseEventV ← ofOptErr (rstr "missing base event: " ++ eventId) baseEvent
  pure ⟨baseEventV, overrides⟩

/-- `BTreeMap::entry(uid).or_default().push(event)`: sorted-by-UID
grouping. -/
def groupInsert (uid : RStr) (ev : VEvent) : List (RStr × List VEvent) →
    List (RStr × List VEvent)
  | [] => [(uid, [ev])]
  | (k, vs) :: rest =>
    if uid = k then (k, vs ++ [ev]) :: rest
    else if rstrLt uid k then (uid, [ev]) :: (k, vs) :: rest
    else (k, vs) :: groupInsert uid ev rest

/-- The sub-component partition loop of `VCalendar::try_from`:
`VEVENT`s are deferred, `VTIMEZONE`s interpreted eagerly. -/
def VCalendar.scanSubs : List Component → List Component × List VTimeZone →
    RRes (List Component × List VTimeZone)
  | [], acc => pure acc
  | sub :: rest, (vevents, timezones) =>
    let subNameU := upperAscii sub.name
    if subNameU = rstr "VEVENT" then
      VCalendar.scanSubs rest (vevents ++ [sub], timezones)
    else if subNameU = rstr "VTIMEZONE" then do
      let tz ← VTimeZone.tryFrom sub
      VCalendar.scanSubs rest (vevents, timezones ++ [tz])
    else VCalendar.scanSubs rest (vevents, timezones)

/-- One iteration of the `VCalendar::try_from` property loop. -/
def VCalendar.scanProp (acc : Option RStr × Option RStr × List Property)
    (prop : RawProperty) : RRes (Option RStr × Option RStr × List Property) := do
  let parsed ← Property.tryFrom prop
  pure (match parsed with
    | .productIdentifier v => (some v.value, acc.2.1, acc.2.2)
    | .version v => (acc.1, some v.value, acc.2.2)
    | p => (acc.1, acc.2.1, acc.2.2 ++ [p]))

/-- The `VEVENT` interpretation loop of `VCalendar::try_from`; the `?`
on each conversion aborts the whole loop at the first failing event. -/
def VCalendar.buildEvents (vcalendar : VCalendar) (fuel : Nat) :
    List Component → List (RStr × List VEvent) → RRes (List (RStr × List VEvent))
  | [], events => pure events
  | comp :: rest, events => do
    let event ← VEvent.tryFromComponent comp vcalendar fuel
    VCalendar.buildEvents vcalendar fuel rest (groupInsert event.uid event events)

/-- `impl TryFrom<parser::Component> for VCalendar`.  `VEVENT`
sub-components are interpreted after everything else (so they can see
the time zones); an error in any of them aborts the whole conversion. -/
def VCalendar.tryFrom (component : Component) (fuel : Nat) : RRes VCalendar := do
  if upperAscii component.name ≠ rstr "VCALENDAR" then
    throw (rstr "ensure failed: not VCALENDAR")
  else do
    let (vevents, timezones) ← VCalendar.scanSubs component.subComponents ([], [])
    let (prodid, version, properties) ←
      component.properties.foldlM VCalendar.scanProp (none, none, [])
    let prodidV ← ofOptErr (rstr "Missing PRODID field in offset rule") prodid
    let versionV ← ofOptErr (rstr "Missing VERSION field in offset rule") version
    let vcalendar : VCalendar := ⟨prodidV, versionV, [], timezones, properties⟩
    let events ← VCalendar.buildEvents vcalendar fuel vevents []
    let eventsV ← events.mapM fun e => do
      pure (e.1, ← EventCollection.new e.2)
    pure { vcalendar with events := eventsV }

/-- `VEvent::recur_iter`: the per-event instance iterator, as the first
`n` recurrence values' worth of the pipeline. -/
def VEvent.recurIter (e : VEvent) (cal : VCalendar) (fuel n : Nat) :
    RRes (List DateTimeFO) :=
  let findTz (tzid : RStr) : RRes VTimeZone :=
    match cal.timezones.find? (fun tz => tz.id == tzid) with
    | some tz => pure tz
    | none => throw (rstr "Referenced timezone " ++ tzid ++ rstr " not in calendar")
  match e.recur with
  | none =>
    match e.timings with
    | some (.utc inner) => pure [⟨inner.start, 0⟩]
    | some (.tz tzid inner) => do
      let tz ← findTz tzid
      let d ← ofPanicking (tz.toInstance fuel inner.start)
      pure [d]
    | some (.perioidUtc inner) => pure [⟨inner.start.start, 0⟩]
    | some (.perioidTz tzid inner) => do
      let tz ← findTz tzid
      let d ← ofPanicking (tz.toInstance fuel inner.start.start)
      pure [d]
    | _ => throw (rstr "Not a datetime event")
  | some recur =>
    match e.timings with
    | some (.utc inner) => do
      let out ← ofPanicking (recur.fromDateWithExtras NaiveDateTime.expandable
        dtUtcToNaive (fun a b => a = b) inner.start inner.rdates inner.exdates
        (FixedOffset.offseter 0) fuel n)
      pure (out.map DateTimeUtc.toFO)
    | some (.tz tzid inner) => do
      let tz ← findTz tzid
      ofPanicking (recur.fromNaiveDateWithExtras NaiveDateTime.expandable
        dtFOToNaive (fun a b => a = b) inner.start inner.rdates inner.exdates
        (tz.offseter fuel) fuel n)
    | some (.perioidUtc inner) => do
      let out ← ofPanicking (recur.fromDateWithExtras NaiveDateTime.expandable
        dtUtcToNaive (fun a b => a = b) inner.start.start (inner.rdates.map (·.start))
        inner.exdates (FixedOffset.offseter 0) fuel n)
      pure (out.map DateTimeUtc.toFO)
    | some (.perioidTz tzid inner) => do
      let tz ← findTz tzid
      ofPanicking (recur.fromNaiveDateWithExtras NaiveDateTime.expandable
        dtFOToNaive (fun a b => a = b) inner.start.start (inner.rdates.map (·.start))
        inner.exdates (tz.offseter fuel) fuel n)
    | _ => throw (rstr "Not a datetime event")

/-- `BTreeMap<DateTime<FixedOffset>, _>::insert`-style sorted insertion
(keys compared by instant, a later equal key replaces). -/
def btreeInsert {β : Type} (k : DateTimeFO) (v : β) :
    List (DateTimeFO × β) → List (DateTimeFO × β)
  | [] => [(k, v)]
  | (k2, v2) :: rest =>
    if k.instant < k2.instant then (k, v) :: (k2, v2) :: rest
    else if k.instant = k2.instant then (k, v) :: rest
    else (k2, v2) :: btreeInsert k v rest

/-- `EventCollection::recur_iter`: the merged instance iterator (base
instances with override keys replaced by the override events' own
recurrences), as a prefix of length governed by `n`. -/
def EventCollection.recurIter (c : EventCollection) (cal : VCalendar)
    (fuel n : Nat) : RRes (List (DateTimeFO × VEvent)) := do
  let resolved ← (c.overrides.filterMap fun de =>
      match de.1 with
      | .dateTime dt => some (dt, de.2)
      | _ => none).mapM fun de => do
    let t ← cal.getTime fuel de.1
    pure (t, de.2)
  let mut overridesB : List (DateTimeFO × VEvent) := []
  for tv in resolved do
    overridesB := btreeInsert tv.1 tv.2 overridesB
  let exceptions : List DateTimeFO := overridesB.map (·.1)
  let mut toRemove : List DateTimeFO := exceptions
  match exceptions.getLast? with
  | some maxDate =>
    let baseDates ← c.base_event.recurIter cal fuel n
    for date in baseDates do
      if maxDate < date then
        break
      toRemove := toRemove.filter fun x => x.instant ≠ date.instant
  | none => pure ()
  let mut overridesF := overridesB
  for date in toRemove do
    overridesF := overridesF.filter fun kv => kv.1.instant ≠ date.instant
  let baseDates ← c.base_event.recurIter cal fuel n
  let baseIter := (baseDates.filter fun date =>
    ¬ exceptions.any fun x => x.instant = date.instant).map fun date =>
      (date, c.base_event)
  let exceptionIters ← overridesF.mapM fun kv => do
    let dates ← kv.2.recurIter cal fuel n
    pure (dates.map fun date => (date, kv.2))
  let exceptionIter := kmergeByList (fun a b => a.1.instant < b.1.instant) exceptionIters
  pure (mergeByList (fun a b => a.1.instant < b.1.instant) baseIter exceptionIter)

/-! ## Concrete fixtures used by the claim theorems -/

/-- The parsed `FREQ=YEARLY;BYMONTH=4;BYDAY=1SU;UNTIL=20060402T070000Z`
(first daylight rule of the New York test fixture). -/
def nyDaylightRule1987 : RecurRule :=
  ⟨.yearly, 1, .untilUtc 1143961200, [], [], [], [(some 1, .sun)], [], [], [], [4], [], .mon⟩

/-- The parsed `FREQ=YEARLY;BYMONTH=3;BYDAY=2SU`. -/
def nyDaylightRule2007 : RecurRule :=
  ⟨.yearly, 1, .infinite, [], [], [], [(some 2, .sun)], [], [], [], [3], [], .mon⟩

/-- The parsed `FREQ=YEARLY;BYMONTH=10;BYDAY=-1SU;UNTIL=20061029T060000Z`. -/
def nyStandardRule1967 : RecurRule :=
  ⟨.yearly, 1, .untilUtc 1162101600, [], [], [], [(some (-1), .sun)], [], [], [], [10], [], .mon⟩

/-- The parsed `FREQ=YEARLY;BYMONTH=11;BYDAY=1SU`. -/
def nyStandardRule2007 : RecurRule :=
  ⟨.yearly, 1, .infinite, [], [], [], [(some 1, .sun)], [], [], [], [11], [], .mon⟩

/-- The `America/New_York` zone exactly as built by the repository's
test fixture (`components.rs` `tests::test_new_york`). -/
def newYorkTimeZone : VTimeZone where
  id := rstr "America/New_York"
  daylight :=
    [⟨-(5 * 3600), -(4 * 3600), NaiveDateTime.fromYmdHms 1987 4 5 2 0 0,
      some nyDaylightRule1987, some (rstr "EDT"), [], [], []⟩,
     ⟨-(5 * 3600), -(4 * 3600), NaiveDateTime.fromYmdHms 2007 3 11 2 0 0,
      some nyDaylightRule2007, some (rstr "EDT"), [], [], []⟩]
  standard :=
    [⟨-(4 * 3600), -(5 * 3600), NaiveDateTime.fromYmdHms 1967 10 29 2 0 0,
      some nyStandardRule1967, some (rstr "EST"), [], [], []⟩,
     ⟨-(4 * 3600), -(5 * 3600), NaiveDateTime.fromYmdHms 2007 11 4 2 0 0,
      some nyStandardRule2007, some (rstr "EST"), [], [], []⟩]
  properties := []

/-- The parsed `FREQ=WEEKLY;BYDAY=WE,MO` (weekdays listed out of
chronological order). -/
def c2Rule : RecurRule :=
  ⟨.weekly, 1, .infinite, [], [], [], [(none, .wed), (none, .mon)], [], [], [], [], [], .mon⟩

/-- A UTC event starting Monday 2022-01-03 10:00 with the out-of-order
`BYDAY` rule. -/
def c2BaseEvent : VEvent where
  uid := rstr "uid1"
  dtstamp := 0
  summary := none
  description := none
  location := none
  sequence := none
  recur := some c2Rule
  timings := some (.utc ⟨(NaiveDateTime.fromYmdHms 2022 1 3 10 0 0).secs, [], [], none⟩)
  is_recurrence_instance := false
  properties := []

def c2Collection : EventCollection := ⟨c2BaseEvent, []⟩

def c2Calendar : VCalendar :=
  ⟨rstr "test", rstr "2.0", [(rstr "uid1", c2Collection)], [], []⟩

/-- The parsed `FREQ=WEEKLY;BYDAY=MO,TU;BYSETPOS=-1`. -/
def c4Rule : RecurRule :=
  ⟨.weekly, 1, .infinite, [], [], [], [(none, .mon), (none, .tue)], [], [], [], [], [-1], .mon⟩

def c4Anchor : NaiveDateTime := NaiveDateTime.fromYmdHms 2022 1 3 10 0 0
def c4Tuesday : NaiveDateTime := NaiveDateTime.fromYmdHms 2022 1 4 10 0 0

/-- The `BYSETPOS` selection as the claim words it: positive `p` picks
index `p − 1`, negative `p` picks the modulo-wrapped position *within
the date set S* (modulo `S.length`).  Stated from the spec's words for
comparison with the code's `applySetPos`. -/
def specSetPosSelection (recur : RecurRule) (dateSet : List α) : Option (List α) :=
  recur.by_set_pos.mapM fun p =>
    if p > 0 then dateSet.get? (p - 1).toNat
    else (rustRemEuclid p (dateSet.length : Int)).bind fun pos => dateSet.get? pos.toNat

/-- The iterator state on the `BYSETPOS=-1` rule before its first
refill. -/
def c4State : RecurIterState NaiveDateTime :=
  ⟨c4Rule, some c4Anchor, [], none, none, 0, none⟩

/-- The anchor one week after `c4Anchor`. -/
def c4NextAnchor : NaiveDateTime := NaiveDateTime.fromYmdHms 2022 1 10 10 0 0

/-- The parsed `FREQ=DAILY;BYSETPOS=2`. -/
def c10Rule : RecurRule :=
  ⟨.daily, 1, .infinite, [], [], [], [], [], [], [], [], [2], .mon⟩

def c10State : RecurIterState NaiveDateTime :=
  ⟨c10Rule, some c4Anchor, [], none, none, 0, none⟩

/-- The parsed `FREQ=YEARLY;BYWEEKNO=2`. -/
def c7Rule : RecurRule :=
  ⟨.yearly, 1, .infinite, [], [], [], [], [], [], [2], [], [], .mon⟩

/-- The parsed `FREQ=DAILY;UNTIL=19971224T090000`. -/
def c1Rule : RecurRule :=
  ⟨.daily, 1, .untilLocal (NaiveDateTime.fromYmdHms 1997 12 24 9 0 0),
   [], [], [], [], [], [], [], [], [], .mon⟩

def c1Until : NaiveDateTime := NaiveDateTime.fromYmdHms 1997 12 24 9 0 0

def c1State : RecurIterState NaiveDateTime :=
  ⟨c1Rule, some (NaiveDateTime.fromYmdHms 1997 12 22 9 0 0), [], none, some c1Until, 0, none⟩

/-- A well-formed `VEVENT` component (UID, UTC DTSTAMP, local DTSTART). -/
def c8GoodEvent : Component :=
  .mk (rstr "VEVENT") []
    [⟨rstr "UID", rstr "good-uid", []⟩,
     ⟨rstr "DTSTAMP", rstr "20200101T000000Z", []⟩,
     ⟨rstr "DTSTART", rstr "20200102T100000", []⟩]

/-- A `VEVENT` whose interpretation fails (no UID). -/
def c8BadEvent : Component :=
  .mk (rstr "VEVENT") []
    [⟨rstr "DTSTAMP", rstr "20200101T000000Z", []⟩]

/-- A syntactically well-formed `VCALENDAR` with one good and one
malformed `VEVENT`. -/
def c8MixedCalendarComp : Component :=
  .mk (rstr "VCALENDAR") [c8GoodEvent, c8BadEvent]
    [⟨rstr "PRODID", rstr "test", []⟩, ⟨rstr "VERSION", rstr "2.0", []⟩]

/-- The same calendar with only the good `VEVENT`. -/
def c8GoodCalendarComp : Component :=
  .mk (rstr "VCALENDAR") [c8GoodEvent]
    [⟨rstr "PRODID", rstr "test", []⟩, ⟨rstr "VERSION", rstr "2.0", []⟩]

/-- The calendar value `VCalendar::try_from` produces for the good
calendar component. -/
def c8GoodCalResult : VCalendar :=
  match (VCalendar.tryFrom c8GoodCalendarComp 10).run with
  | some (.ok v) => v
  | _ => ⟨[], [], [], [], []⟩

/-- A raw property with an unrecognized, lower-case name. -/
def c9Prop : RawProperty := ⟨rstr "x-custom", rstr "v", []⟩

/-- A `VEVENT` component carrying the unknown property. -/
def c9Comp : Component :=
  .mk (rstr "VEVENT") []
    [⟨rstr "UID", rstr "u9", []⟩,
     ⟨rstr "DTSTAMP", rstr "20200101T000000Z", []⟩,
     c9Prop]

def c9Cal : VCalendar := ⟨rstr "p", rstr "2.0", [], [], []⟩

/-- The event value `try_from_component` produces for `c9Comp`. -/
def c9Event : VEvent :=
  match (VEvent.tryFromComponent c9Comp c9Cal 10).run with
  | some (.ok e) => e
  | _ => ⟨[], 0, none, none, none, none, none, none, false, []⟩

/-- Whether a list of instants is monotonically non-decreasing in each
consecutive pair. -/
def pairwiseNonDecreasing : List Int → Bool
  | a :: b :: rest => decide (a ≤ b) && pairwiseNonDecreasing (b :: rest)
  | _ => true

/-! ## Lemmas about the recurrence iterator -/

/-- The refill loop never changes the `until` bound carried by the
iterator state. -/
theorem RecurIter.refill_untilBound {α : Type} (ex : Expandable α) (fuel : Nat) :
    ∀ (s s' : RecurIterState α),
    RecurIter.refill ex fuel s = .filled s' → s'.untilBound = s.untilBound := by
  induction fuel with
  | zero =>
    intro s s' h
    exact RefillResult.noConfusion h
  | succ n ih =>
    intro s s' h
    rw [RecurIter.refill] at h
    split at h
    · injection h with h1
      rw [← h1]
    · split at h
      · exact RefillResult.noConfusion h
      · split at h
        · exact RefillResult.noConfusion h
        · dsimp only at h
          split at h
          · exact RefillResult.noConfusion h
          · split at h
            · exact RefillResult.noConfusion h
            · have h2 := ih _ _ h
              rw [h2]
              split <;> rfl

/-- A value yielded by `RecurIter::next` passed the `UNTIL` check, and
the bound survives into the successor state. -/
theorem RecurIter.next_yielded_le {α : Type} (ex : Expandable α) (fuel : Nat)
    (s : RecurIterState α) (d : α) (s' : RecurIterState α)
    (h : RecurIter.next ex fuel s = .yielded d s') :
    s'.untilBound = s.untilBound ∧
    ∀ u, s.untilBound = some u → ex.leqLocal d u = true := by
  unfold RecurIter.next at h
  split at h
  · exact Step.noConfusion h
  · exact Step.noConfusion h
  · exact Step.noConfusion h
  · next s1 hre =>
    have hub : s1.untilBound = s.untilBound := RecurIter.refill_untilBound ex fuel s s1 hre
    split at h
    · exact Step.noConfusion h
    · dsimp only at h
      split at h
      · exact Step.noConfusion h
      · split at h
        · exact Step.noConfusion h
        · next hcond =>
          injection h with h1 h2
          subst h1
          constructor
          · rw [← h2]
            exact hub
          · intro u hu
            rw [hub, hu] at hcond
            simpa using hcond

/-- Every value collected from the iterator satisfies the `UNTIL`
bound. -/
theorem RecurIter.collect_le_until {α : Type} (ex : Expandable α) (fuel : Nat)
    (u : NaiveDateTime) :
    ∀ (n : Nat) (s : RecurIterState α), s.untilBound = some u →
    ∀ x ∈ RecurIter.collect ex fuel s n, ex.leqLocal x u = true := by
  intro n
  induction n with
  | zero =>
    intro s _ x hx
    simp [RecurIter.collect] at hx
  | succ m ih =>
    intro s hu x hx
    rw [RecurIter.collect] at hx
    cases hn : RecurIter.next ex fuel s with
    | yielded d s' =>
      rw [hn] at hx
      obtain ⟨hub, hle⟩ := RecurIter.next_yielded_le ex fuel s d s' hn
      cases hx with
      | head => exact hle u hu
      | tail _ hmem => exact ih s' (by rw [hub, hu]) x hmem
    | panicked => rw [hn] at hx; simp at hx
    | fuelOut => rw [hn] at hx; simp at hx
    | stopped => rw [hn] at hx; simp at hx

/-- C1.  For every recurrence rule whose end condition is `Until(u)` —
and for `UntilUtc(t)` after `t` is converted to a naive local time by
the iteration's offset provider — every instant yielded by the iterator
built by `RecurRule::from_date` is `≤ u`: the endpoint is inclusive and
iteration stops before the first instance strictly greater than `u`. -/
theorem c1_until_endpoint_inclusive (rule : RecurRule) (off : Offseter)
    (d0 u : NaiveDateTime) (st : RecurIterState NaiveDateTime) (fuel n : Nat)
    (hst : rule.fromDate d0 off = some st)
    (hcond : rule.end_condition = .untilLocal u ∨
      ∃ t, rule.end_condition = .untilUtc t ∧ off.fromInstance t.toFO = some u) :
    ∀ x ∈ RecurIter.collect NaiveDateTime.expandable fuel st n, x ≤ u := by
  have hub : st.untilBound = some u := by
    unfold RecurRule.fromDate RecurRule.boundsOf at hst
    rcases hcond with h | ⟨t, h, hf⟩
    · rw [h] at hst
      simp at hst
      rw [← hst]
    · rw [h] at hst
      simp [hf] at hst
      rw [← hst]
  intro x hx
  have h := RecurIter.collect_le_until NaiveDateTime.expandable fuel u n st hub x hx
  simpa [NaiveDateTime.expandable] using h

/-- Witness for C1 at the parsed rule `FREQ=DAILY;UNTIL=19971224T090000`
anchored 1997-12-22T09:00: the yielded instant 1997-12-23T09:00 is below
the inclusive endpoint. -/
theorem c1_until_endpoint_inclusive_witness :
    NaiveDateTime.fromYmdHms 1997 12 23 9 0 0 ≤ c1Until :=
  c1_until_endpoint_inclusive c1Rule (FixedOffset.offseter 0)
    (NaiveDateTime.fromYmdHms 1997 12 22 9 0 0) c1Until c1State 10 5
    (by rfl) (Or.inl rfl) (NaiveDateTime.fromYmdHms 1997 12 23 9 0 0) (by decide)

/-! ## C2: determinism and (non-)monotonicity of the merged iterator -/

/-- C2 counterexample.  On a concrete calendar — one UTC event starting
Monday 2022-01-03 10:00 with the successfully parsed rule
`FREQ=WEEKLY;BYDAY=WE,MO` and no overrides — `EventCollection::recur_iter`
yields the instants Wed Jan 5, Mon Jan 3, Wed Jan 12, Mon Jan 10: the
first two consecutive yields are strictly decreasing, refuting
`d1 ≤ d2`. -/
theorem c2_counterexample :
    (RecurRule.fromStr (rstr "FREQ=WEEKLY;BYDAY=WE,MO")).run = some (.ok c2Rule) ∧
    ((EventCollection.recurIter c2Collection c2Calendar 50 4).run.map
      (Except.map (List.map fun p => p.1.instant))) =
      some (.ok [1641376800, 1641204000, 1641981600, 1641808800]) ∧
    pairwiseNonDecreasing [1641376800, 1641204000, 1641981600, 1641808800] = false := by
  refine ⟨by decide, by decide, by decide⟩

/-- C2 amended: for a fixed calendar the output of
`EventCollection::recur_iter` is deterministic (the iterator is a pure
function of the calendar value, so two runs agree definitionally), but
it is NOT always monotonically non-decreasing in instant: when a `BY*`
expansion lists days out of chronological order, consecutive yields can
decrease, as on the `BYDAY=WE,MO` calendar. -/
theorem c2_deterministic_but_not_monotone :
    (∀ (c : EventCollection) (cal : VCalendar) (fuel n : Nat),
      EventCollection.recurIter c cal fuel n = EventCollection.recurIter c cal fuel n) ∧
    ((EventCollection.recurIter c2Collection c2Calendar 50 4).run.map
      (Except.map fun l => pairwiseNonDecreasing (l.map fun p => p.1.instant))) =
      some (.ok false) := by
  refine ⟨fun _ _ _ _ => rfl, by decide⟩

/-! ## C3: the New York fixture -/

/-- C3.  The four recurrence rules of the repository's New York test
fixture parse to the given records, and `VTimeZone::get_offset` with the
local direction returns −05:00 for 1997-11-01 00:00, −04:00 for
1998-07-23 00:00, −05:00 for 2020-01-01 00:00 and −04:00 for
2020-07-23 00:00. -/
theorem c3_new_york_fixture_offsets :
    (RecurRule.fromStr (rstr "FREQ=YEARLY;BYMONTH=4;BYDAY=1SU;UNTIL=20060402T070000Z")).run =
      some (.ok nyDaylightRule1987) ∧
    (RecurRule.fromStr (rstr "FREQ=YEARLY;BYMONTH=3;BYDAY=2SU")).run =
      some (.ok nyDaylightRule2007) ∧
    (RecurRule.fromStr (rstr "FREQ=YEARLY;BYMONTH=10;BYDAY=-1SU;UNTIL=20061029T060000Z")).run =
      some (.ok nyStandardRule1967) ∧
    (RecurRule.fromStr (rstr "FREQ=YEARLY;BYMONTH=11;BYDAY=1SU")).run =
      some (.ok nyStandardRule2007) ∧
    newYorkTimeZone.getOffset 60 (NaiveDateTime.fromYmdHms 1997 11 1 0 0 0) true =
      some (-(5 * 3600)) ∧
    newYorkTimeZone.getOffset 60 (NaiveDateTime.fromYmdHms 1998 7 23 0 0 0) true =
      some (-(4 * 3600)) ∧
    newYorkTimeZone.getOffset 60 (NaiveDateTime.fromYmdHms 2020 1 1 0 0 0) true =
      some (-(5 * 3600)) ∧
    newYorkTimeZone.getOffset 60 (NaiveDateTime.fromYmdHms 2020 7 23 0 0 0) true =
      some (-(4 * 3600)) := by
  refine ⟨by decide, by decide, by decide, by decide, by decide, by decide, by decide, by decide⟩

/-! ## C5: TZOFFSETFROM/TZOFFSETTO decoding -/

/-- C5.  `parse_offset` adds the MM digits as raw seconds, not minutes:
`+0530` decodes to 5·3600 + 30 = 18030 seconds east, not the
5·3600 + 30·60 = 19800 the claim (and RFC 5545) prescribe. -/
theorem c5_offset_minutes_added_as_seconds :
    (parse_offset (rstr "+0530")).run = some (.ok 18030) ∧
    (18030 : Int) = 5 * 3600 + 30 ∧
    (5 * 3600 + 30 * 60 : Int) = 19800 ∧
    (18030 : Int) ≠ 19800 := by
  refine ⟨by decide, by decide, by decide, by decide⟩

/-! ## C6: period duration parsing -/

/-- C6.  In `Period::parse_from` the repeated regex capture group only
reports its final repetition, so `20000101T000000/P15DT5H0M20S` parses
to a duration of 20 seconds instead of the
15·86400 + 5·3600 + 20 = 1314020 seconds the claim prescribes. -/
theorem c6_period_duration_last_component_only :
    (Period.parseFrom (rstr "20000101T000000/P15DT5H0M20S") ⟨[]⟩).run =
      some (.ok ⟨.local (NaiveDateTime.fromYmdHms 2000 1 1 0 0 0), 20⟩) ∧
    (15 * 86400 + 5 * 3600 + 0 * 60 + 20 : Int) = 1314020 ∧
    (20 : Int) ≠ 1314020 := by
  refine ⟨by decide, by decide, by decide⟩

/-! ## C8: semantic errors abort the whole calendar -/

/-- C8 counterexample.  A syntactically well-formed `VCALENDAR` holding
one well-formed `VEVENT` and one malformed `VEVENT` (no UID) fails
`VCalendar::try_from` entirely, while the same calendar without the
malformed event succeeds — the error aborts the whole build, not just
the offending component. -/
theorem c8_counterexample :
    ((VCalendar.tryFrom c8MixedCalendarComp 10).run.map Except.isOk) = some false ∧
    ((VCalendar.tryFrom c8GoodCalendarComp 10).run.map Except.isOk) = some true := by
  refine ⟨by rfl, by rfl⟩

/-! ## C9: unrecognized property names -/

/-- C9 counterexample.  Decoding the unknown property name `x-custom`
stores the ORIGINAL name, not the upper-cased one the claim
describes. -/
theorem c9_counterexample :
    (Property.tryFrom c9Prop).run =
      some (.ok (.other (rstr "x-custom") ⟨rstr "v", ⟨[]⟩⟩)) ∧
    rstr "x-custom" ≠ upperAscii (rstr "x-custom") := by
  refine ⟨by rfl, by decide⟩

/-! ## C10: BYSETPOS indexing can panic -/

/-- C10 counterexample.  `FREQ=DAILY;BYSETPOS=2` parses successfully,
but a daily anchor's date set is a singleton, so the computed index
2 − 1 = 1 is out of bounds and `RecurIter::next` panics: the iterator is
not total for every successfully parsed rule. -/
theorem c10_counterexample :
    (RecurRule.fromStr (rstr "FREQ=DAILY;BYSETPOS=2")).run = some (.ok c10Rule) ∧
    RecurRule.fromDate c10Rule c4Anchor (FixedOffset.offseter 0) = some c10State ∧
    RecurIter.next NaiveDateTime.expandable 10 c10State = .panicked := by
  refine ⟨by decide, by rfl, by rfl⟩

/-! ## C4: the BYSETPOS selection -/

/-- C4 counterexample.  For the successfully parsed rule
`FREQ=WEEKLY;BYDAY=MO,TU;BYSETPOS=-1` and the Monday anchor
2022-01-03 10:00, the anchor's date set is `[Mon, Tue]`; the code's
selection (`p.rem_euclid(by_set_pos.len())`, the length of the BYSETPOS
list) enqueues `[Mon]`, whereas the claim's "modulo-wrapped position
within S" (−1 mod |S| = 1) prescribes `[Tue]`. -/
theorem c4_counterexample :
    (RecurRule.fromStr (rstr "FREQ=WEEKLY;BYDAY=MO,TU;BYSETPOS=-1")).run =
      some (.ok c4Rule) ∧
    NaiveDateTime.expandable.expandDateSet c4Rule c4Anchor =
      some [c4Anchor, c4Tuesday] ∧
    applySetPos c4Rule [c4Anchor, c4Tuesday] = some [c4Anchor] ∧
    buildQueue NaiveDateTime.expandable none [c4Anchor] = [c4Anchor] ∧
    specSetPosSelection c4Rule [c4Anchor, c4Tuesday] = some [c4Tuesday] ∧
    c4Anchor ≠ c4Tuesday := by
  refine ⟨by decide, by decide, by decide, by decide, by decide, by decide⟩

/-! ## Generic result-chasing lemmas -/

/-- Inversion for a successful `RRes` bind. -/
theorem RRes.bind_ok {α β : Type} (x : RRes α) (f : α → RRes β) (b : β)
    (h : (x >>= f).run = some (.ok b)) :
    ∃ a, x.run = some (.ok a) ∧ (f a).run = some (.ok b) := by
  rw [ExceptT.run_bind] at h
  cases hx : x.run with
  | none => rw [hx] at h; exact Option.noConfusion h
  | some e =>
    rw [hx] at h
    cases e with
    | error e => simp at h
    | ok a => exact ⟨a, rfl, by simpa using h⟩

/-- A successful `ofOptErr` came from `some`. -/
theorem ofOptErr_ok {α : Type} (msg : RStr) (o : Option α) (a : α)
    (h : (ofOptErr msg o).run = some (.ok a)) : o = some a := by
  cases o with
  | none => exact Except.noConfusion (Option.some.inj h)
  | some b => exact congrArg some (Except.ok.inj (Option.some.inj h))

/-- A successful `pure` in `RRes` pins the value. -/
theorem RRes.pure_ok {α : Type} (a b : α)
    (h : (pure a : RRes α).run = some (.ok b)) : a = b :=
  Except.ok.inj (Option.some.inj h)

/-- `mapM` over `Option` is total `filterMap` when every element
succeeds. -/
theorem mapM_eq_filterMap_of_isSome {β γ : Type} (f : β → Option γ) :
    ∀ (l : List β), (∀ p ∈ l, (f p).isSome) →
    l.mapM f = some (l.filterMap f) := by
  intro l
  induction l with
  | nil => intro _; rfl
  | cons a rest ih =>
    intro hall
    have ha : (f a).isSome := hall a (List.mem_cons_self a rest)
    obtain ⟨b, hb⟩ := Option.isSome_iff_exists.mp ha
    have hrest := ih fun p hp => hall p (List.mem_cons_of_mem a hp)
    rw [List.mapM_cons, hb, hrest]
    simp [List.filterMap_cons, hb]

/-! ## C10: in-bounds indices make the BYSETPOS selection total -/

/-- C10 amended.  The indexing in `RecurIter::next` is not panic-free
for every parsed rule (see the counterexample); but whenever each
computed `BYSETPOS` index does land within the anchor's date set, the
selection `date_set[pos]` is defined for every listed entry and the
`BYSETPOS` step of `next` cannot panic. -/
theorem c10_inbounds_selection_total {α : Type} (recur : RecurRule) (S : List α)
    (hall : ∀ p ∈ recur.by_set_pos,
      ((codeSetPosIndex recur p).bind fun pos => S.get? pos.toNat).isSome) :
    (applySetPos recur S).isSome := by
  unfold applySetPos
  rw [mapM_eq_filterMap_of_isSome _ _ hall]
  rfl

/-- Witness for the amended C10 at `FREQ=DAILY;BYSETPOS=2` and a
two-element date set (index 1 is in bounds there). -/
theorem c10_inbounds_selection_total_witness :
    (applySetPos c10Rule [c4Anchor, c4Tuesday]).isSome :=
  c10_inbounds_selection_total c10Rule [c4Anchor, c4Tuesday] (by decide)

/-! ## C4: the amended BYSETPOS enqueue description -/

/-- C4 amended.  When `BYSETPOS` is non-empty and every computed index
is in bounds, the refill step of `RecurIter::next` enqueues exactly, in
the order of the listed `BYSETPOS` values, the element at index `p − 1`
for positive `p` and at `p.rem_euclid(len(BYSETPOS))` for negative `p`
(modulo the length of the `BYSETPOS` list, not of the date set), the
whole selection then being filtered of the previously-emitted value and
adjacent-deduplicated before enqueueing. -/
theorem c4_setpos_enqueue {α : Type} (ex : Expandable α) (recur : RecurRule)
    (fuel : Nat) (s : RecurIterState α) (curr nxt : α) (S L : List α)
    (hq : s.queue = []) (hnd : s.next_date = some curr) (hrec : s.recur = recur)
    (hadv : ex.advance curr recur.frequency recur.interval = some nxt)
    (hexp : ex.expandDateSet recur curr = some S)
    (hbsp : recur.by_set_pos ≠ [])
    (hall : ∀ p ∈ recur.by_set_pos,
      ((codeSetPosIndex recur p).bind fun pos => S.get? pos.toNat).isSome)
    (hL : L = recur.by_set_pos.filterMap fun p =>
      (codeSetPosIndex recur p).bind fun pos => S.get? pos.toNat)
    (hq2 : buildQueue ex s.previous_date L ≠ []) :
    RecurIter.refill ex (fuel + 2) s =
      .filled { s with next_date := some nxt, queue := buildQueue ex s.previous_date L } := by
  have hsel : applySetPos recur S = some L := by
    rw [hL]
    exact mapM_eq_filterMap_of_isSome _ _ hall
  have hLne : ¬ L.isEmpty := by
    intro hnil
    rw [List.isEmpty_iff] at hnil
    rw [hnil] at hq2
    exact hq2 rfl
  rw [RecurIter.refill]
  rw [if_neg (by simp [hq])]
  rw [hnd]
  dsimp only
  rw [hrec]
  rw [hadv]
  dsimp only
  rw [hexp]
  dsimp only
  rw [if_pos hbsp, hsel]
  dsimp only
  rw [if_pos hLne]
  rw [RecurIter.refill]
  rw [if_pos (by simpa [List.isEmpty_iff] using hq2)]

/-- Witness for the amended C4 at `FREQ=WEEKLY;BYDAY=MO,TU;BYSETPOS=-1`
and the Monday anchor: the refill enqueues exactly `[Mon]`. -/
theorem c4_setpos_enqueue_witness :
    RecurIter.refill NaiveDateTime.expandable 10 c4State =
      .filled { c4State with next_date := some c4NextAnchor, queue := [c4Anchor] } :=
  c4_setpos_enqueue NaiveDateTime.expandable c4Rule 8 c4State c4Anchor c4NextAnchor
    [c4Anchor, c4Tuesday] [c4Anchor] rfl rfl rfl (by decide) (by decide) (by decide)
    (by decide) (by decide) (by decide)

/-! ## C7: the cross-combination checks are enforced at parse time -/

/-- C7.  Whatever the input string, a rule that comes out of
`RecurRule::from_str` successfully never combines `BYWEEKNO` with a
non-`YEARLY` frequency, `BYYEARDAY` with `DAILY`/`WEEKLY`/`MONTHLY`,
`BYMONTHDAY` with `WEEKLY`, or a numeric `BYDAY` prefix with a frequency
other than `MONTHLY`/`YEARLY` — the checks run at parse time, before any
iteration. -/
theorem c7_cross_combination_checks (s : RStr) (r : RecurRule)
    (h : (RecurRule.fromStr s).run = some (.ok r)) :
    (r.by_week_number ≠ [] → r.frequency = .yearly) ∧
    (r.by_year_day ≠ [] →
      r.frequency ≠ .daily ∧ r.frequency ≠ .weekly ∧ r.frequency ≠ .monthly) ∧
    (r.by_month_day ≠ [] → r.frequency ≠ .weekly) ∧
    (∀ e ∈ r.by_day, e.1.isSome → r.frequency = .monthly ∨ r.frequency = .yearly) := by
  unfold RecurRule.fromStr at h
  obtain ⟨acc, -, h⟩ := RRes.bind_ok _ _ _ h
  unfold RecurRule.finalize at h
  obtain ⟨freq, hfreq, h⟩ := RRes.bind_ok _ _ _ h
  split at h
  · exact Except.noConfusion (Option.some.inj h)
  · rename_i hc1
    split at h
    · exact Except.noConfusion (Option.some.inj h)
    · rename_i hc2
      split at h
      · exact Except.noConfusion (Option.some.inj h)
      · rename_i hc3
        split at h
        · exact Except.noConfusion (Option.some.inj h)
        · rename_i hc4
          have hr := RRes.pure_ok _ _ h
          rw [← hr]
          push_neg at hc1 hc2 hc3 hc4
          refine ⟨fun hne => hc1 hne, fun hne => hc2 hne, fun hne => hc3 hne, ?_⟩
          intro e he hsome
          by_cases hm : freq = Frequency.monthly
          · exact Or.inl hm
          · by_cases hy : freq = Frequency.yearly
            · exact Or.inr hy
            · exact absurd (List.any_eq_true.mpr ⟨e, he, hsome⟩) (hc4 hm hy)


theorem c7_cross_combination_checks_witness :
    (RecurRule.fromStr (rstr "FREQ=YEARLY;BYWEEKNO=2")).run = some (.ok c7Rule) ∧
    ((c7Rule.by_week_number ≠ [] → c7Rule.frequency = .yearly) ∧
     (c7Rule.by_year_day ≠ [] →
       c7Rule.frequency ≠ .daily ∧ c7Rule.frequency ≠ .weekly ∧
       c7Rule.frequency ≠ .monthly) ∧
     (c7Rule.by_month_day ≠ [] → c7Rule.frequency ≠ .weekly) ∧
     (∀ e ∈ c7Rule.by_day, e.1.isSome →
       c7Rule.frequency = .monthly ∨ c7Rule.frequency = .yearly)) :=
  ⟨by decide, c7_cross_combination_checks (rstr "FREQ=YEARLY;BYWEEKNO=2") c7Rule (by decide)⟩

/-- If the `VEVENT` interpretation loop of `VCalendar::try_from`
succeeds, every component it was given interprets successfully. -/
theorem VCalendar.buildEvents_ok (vcal : VCalendar) (fuel : Nat) :
    ∀ (comps : List Component) (events res : List (RStr × List VEvent)),
    (VCalendar.buildEvents vcal fuel comps events).run = some (.ok res) →
    ∀ sub ∈ comps, ∃ ev,
      (VEvent.tryFromComponent sub vcal fuel).run = some (.ok ev) := by
  intro comps
  induction comps with
  | nil => intro _ _ _ sub hsub; exact absurd hsub (List.not_mem_nil sub)
  | cons c rest ih =>
    intro events res h sub hsub
    rw [VCalendar.buildEvents] at h
    obtain ⟨ev, hev, hrest⟩ := RRes.bind_ok _ _ _ h
    rcases List.mem_cons.mp hsub with heq | hmem
    · exact ⟨ev, heq ▸ hev⟩
    · exact ih _ _ hrest sub hmem

/-- Components already in the `scanSubs` accumulator survive to the
final `vevents` list. -/
theorem VCalendar.scanSubs_acc_sub :
    ∀ (subs : List Component) (acc res : List Component × List VTimeZone),
    (VCalendar.scanSubs subs acc).run = some (.ok res) →
    ∀ x ∈ acc.1, x ∈ res.1 := by
  intro subs
  induction subs with
  | nil =>
    intro acc res h x hx
    rw [VCalendar.scanSubs] at h
    rw [← RRes.pure_ok _ _ h]
    exact hx
  | cons c rest ih =>
    intro acc res h x hx
    obtain ⟨vevents, timezones⟩ := acc
    rw [VCalendar.scanSubs] at h
    split at h
    · exact ih _ _ h x (List.mem_append_left _ hx)
    · split at h
      · obtain ⟨tz, -, h⟩ := RRes.bind_ok _ _ _ h
        exact ih _ _ h x hx
      · exact ih _ _ h x hx

/-- Every `VEVENT` sub-component given to `scanSubs` lands in the
final `vevents` list. -/
theorem VCalendar.scanSubs_mem_vevents :
    ∀ (subs : List Component) (acc res : List Component × List VTimeZone),
    (VCalendar.scanSubs subs acc).run = some (.ok res) →
    ∀ sub ∈ subs, upperAscii sub.name = rstr "VEVENT" → sub ∈ res.1 := by
  intro subs
  induction subs with
  | nil => intro acc res h sub hsub _; exact absurd hsub (List.not_mem_nil sub)
  | cons c rest ih =>
    intro acc res h sub hsub hname
    obtain ⟨vevents, timezones⟩ := acc
    rw [VCalendar.scanSubs] at h
    rcases List.mem_cons.mp hsub with heq | hmem
    · subst heq
      rw [if_pos hname] at h
      exact VCalendar.scanSubs_acc_sub rest _ _ h sub
        (List.mem_append_right _ (List.mem_singleton.mpr rfl))
    · split at h
      · exact ih _ _ h sub hmem hname
      · split at h
        · obtain ⟨tz, -, h⟩ := RRes.bind_ok _ _ _ h
          exact ih _ _ h sub hmem hname
        · exact ih _ _ h sub hmem hname

/-- C8 (amended): an interpretation error in any `VEVENT` sub-component
aborts the whole `VCalendar::try_from` conversion, not just that
component.  Contrapositively: whenever the conversion succeeds, every
`VEVENT` sub-component of the calendar interprets successfully against
the partial calendar (prodid, version, time zones, properties) that the
conversion built. -/
theorem c8_error_aborts_whole_calendar (comp : Component) (fuel : Nat)
    (v : VCalendar) (sub : Component)
    (hok : (VCalendar.tryFrom comp fuel).run = some (.ok v))
    (hmem : sub ∈ comp.subComponents)
    (hname : upperAscii sub.name = rstr "VEVENT") :
    ∃ ev, (VEvent.tryFromComponent sub
        ⟨v.prodid, v.version, [], v.timezones, v.properties⟩ fuel).run =
      some (.ok ev) := by
  rw [VCalendar.tryFrom] at hok
  split at hok
  · exact Except.noConfusion (Option.some.inj hok)
  · obtain ⟨p, hscan, hok⟩ := RRes.bind_ok _ _ _ hok
    obtain ⟨vevents, timezones⟩ := p
    obtain ⟨t, hfold, hok⟩ := RRes.bind_ok _ _ _ hok
    obtain ⟨prodid, version, properties⟩ := t
    obtain ⟨prodidV, -, hok⟩ := RRes.bind_ok _ _ _ hok
    obtain ⟨versionV, -, hok⟩ := RRes.bind_ok _ _ _ hok
    dsimp only at hok
    obtain ⟨events, hbuild, hok⟩ := RRes.bind_ok _ _ _ hok
    obtain ⟨eventsV, -, hok⟩ := RRes.bind_ok _ _ _ hok
    have hv := RRes.pure_ok _ _ hok
    rw [← hv]
    exact VCalendar.buildEvents_ok _ fuel vevents [] events hbuild sub
      (VCalendar.scanSubs_mem_vevents comp.subComponents ([], [])
        (vevents, timezones) hscan sub hmem hname)

theorem c8_error_aborts_whole_calendar_witness :
    (VCalendar.tryFrom c8GoodCalendarComp 10).run = some (.ok c8GoodCalResult) ∧
    c8GoodEvent ∈ c8GoodCalendarComp.subComponents ∧
    upperAscii c8GoodEvent.name = rstr "VEVENT" ∧
    ∃ ev, (VEvent.tryFromComponent c8GoodEvent
        ⟨c8GoodCalResult.prodid, c8GoodCalResult.version, [],
         c8GoodCalResult.timezones, c8GoodCalResult.properties⟩ 10).run =
      some (.ok ev) :=
  ⟨rfl, List.Mem.head _, rfl,
   c8_error_aborts_whole_calendar c8GoodCalendarComp 10 c8GoodCalResult
     c8GoodEvent rfl (List.Mem.head _) rfl⟩

/-- Forward bind introduction for `RRes`. -/
theorem RRes.bind_ok_intro {α β : Type} (x : RRes α) (f : α → RRes β) (a : α)
    (b : β) (hx : x.run = some (.ok a)) (hf : (f a).run = some (.ok b)) :
    (x >>= f).run = some (.ok b) := by
  rw [ExceptT.run_bind, hx]
  exact hf

/-- A raw property whose upper-cased name is not among the recognized
names decodes to `Other` with the original (case-preserved) name and the
raw value, once its parameters convert. -/
theorem Property.tryFrom_unknown (p : RawProperty) (ps : ParameterSet)
    (hps : ParameterSet.ofRaw p.parameters = some ps)
    (hn : upperAscii p.name ∉ recognizedNames) :
    (Property.tryFrom p).run = some (.ok (.other p.name ⟨p.value, ps⟩)) := by
  simp only [recognizedNames, List.mem_cons, List.mem_singleton, not_or] at hn
  obtain ⟨h1, h2, h3, h4, h5, h6, h7, h8, h9, h10, h11, h12, h13, h14, h15, h16,
    h17, h18, h19, h20, h21, h22, h23, h24, h25, h26, h27, h28, h29, h30, h31,
    h32, h33, h34, h35, -⟩ := hn
  rw [Property.tryFrom]
  refine RRes.bind_ok_intro _ _ ps _ ?_ ?_
  · rw [ofPanicking, hps]; rfl
  · dsimp only
    rw [if_neg h1, if_neg h2, if_neg h3, if_neg h4, if_neg h5, if_neg h6,
      if_neg h7, if_neg h8, if_neg h9, if_neg h10, if_neg h11, if_neg h12,
      if_neg h13, if_neg h14, if_neg h15, if_neg h16, if_neg h17, if_neg h18,
      if_neg h19, if_neg h20, if_neg h21, if_neg h22, if_neg h23, if_neg h24,
      if_neg h25, if_neg h26, if_neg h27, if_neg h28, if_neg h29, if_neg h30,
      if_neg h31, if_neg h32, if_neg h33, if_neg h34, if_neg h35]
    rfl

/-- One step of the `VEvent` property loop only ever appends to the
leftover-property list. -/
theorem VEvent.scanProp_properties_prefix (acc : VEventAccum) (q : RawProperty)
    (acc' : VEventAccum)
    (h : (VEvent.scanProp acc q).run = some (.ok acc')) :
    ∃ t, acc'.properties = acc.properties ++ t := by
  rw [VEvent.scanProp] at h
  obtain ⟨parsed, -, h⟩ := RRes.bind_ok _ _ _ h
  rw [← RRes.pure_ok _ _ h]
  cases parsed <;>
    first
    | exact ⟨[], (List.append_nil _).symm⟩
    | exact ⟨_, rfl⟩

/-- The whole `VEvent` property loop only ever appends to the
leftover-property list. -/
theorem VEvent.foldl_properties_prefix :
    ∀ (props : List RawProperty) (acc res : VEventAccum),
    (props.foldlM VEvent.scanProp acc).run = some (.ok res) →
    ∃ t, res.properties = acc.properties ++ t := by
  intro props
  induction props with
  | nil =>
    intro acc res h
    rw [List.foldlM_nil] at h
    rw [← RRes.pure_ok _ _ h]
    exact ⟨[], (List.append_nil _).symm⟩
  | cons q rest ih =>
    intro acc res h
    rw [List.foldlM_cons] at h
    obtain ⟨acc1, hq, hrest⟩ := RRes.bind_ok _ _ _ h
    obtain ⟨t1, ht1⟩ := VEvent.scanProp_properties_prefix acc q acc1 hq
    obtain ⟨t2, ht2⟩ := ih acc1 res hrest
    exact ⟨t1 ++ t2, by rw [ht2, ht1, List.append_assoc]⟩

/-- Scanning an unrecognized property appends exactly its `Other`
decoding to the leftover-property list. -/
theorem VEvent.scanProp_unknown (acc : VEventAccum) (p : RawProperty)
    (ps : ParameterSet) (acc' : VEventAccum)
    (hps : ParameterSet.ofRaw p.parameters = some ps)
    (hn : upperAscii p.name ∉ recognizedNames)
    (h : (VEvent.scanProp acc p).run = some (.ok acc')) :
    acc'.properties = acc.properties ++ [.other p.name ⟨p.value, ps⟩] := by
  rw [VEvent.scanProp] at h
  obtain ⟨parsed, hp, h⟩ := RRes.bind_ok _ _ _ h
  have hparsed : Property.other p.name ⟨p.value, ps⟩ = parsed :=
    Except.ok.inj (Option.some.inj
      ((Property.tryFrom_unknown p ps hps hn).symm.trans hp))
  rw [← RRes.pure_ok _ _ h, ← hparsed]

/-- An unrecognized property anywhere in the scanned list survives the
whole property loop, as its `Other` decoding. -/
theorem VEvent.foldl_unknown_mem (p : RawProperty) (ps : ParameterSet)
    (hps : ParameterSet.ofRaw p.parameters = some ps)
    (hn : upperAscii p.name ∉ recognizedNames) :
    ∀ (props : List RawProperty) (acc res : VEventAccum),
    (props.foldlM VEvent.scanProp acc).run = some (.ok res) →
    p ∈ props →
    Property.other p.name ⟨p.value, ps⟩ ∈ res.properties := by
  intro props
  induction props with
  | nil => intro acc res _ hmem; exact absurd hmem (List.not_mem_nil p)
  | cons q rest ih =>
    intro acc res h hmem
    rw [List.foldlM_cons] at h
    obtain ⟨acc1, hq, hrest⟩ := RRes.bind_ok _ _ _ h
    rcases List.mem_cons.mp hmem with heq | hmem
    · subst heq
      obtain ⟨t, ht⟩ := VEvent.foldl_properties_prefix rest acc1 res hrest
      rw [ht, VEvent.scanProp_unknown acc p ps acc1 hps hn hq]
      exact List.mem_append_left _
        (List.mem_append_right _ (List.mem_singleton.mpr rfl))
    · exact ih acc1 res hrest hmem

/-- `VEvent::try_from_component` copies the leftover-property list of
its property loop into the event unchanged. -/
theorem VEvent.assemble_properties (calendar : VCalendar) (fuel : Nat)
    (acc : VEventAccum) (ev : VEvent)
    (h : (VEvent.assemble calendar fuel acc).run = some (.ok ev)) :
    ev.properties = acc.properties := by
  rw [VEvent.assemble] at h
  obtain ⟨uidV, -, h⟩ := RRes.bind_ok _ _ _ h
  split at h
  · exact Except.noConfusion (Option.some.inj h)
  · obtain ⟨duration, -, h⟩ := RRes.bind_ok _ _ _ h
    obtain ⟨recurOffset, -, h⟩ := RRes.bind_ok _ _ _ h
    obtain ⟨timings, -, h⟩ := RRes.bind_ok _ _ _ h
    obtain ⟨dtstampV, -, h⟩ := RRes.bind_ok _ _ _ h
    rw [← RRes.pure_ok _ _ h]

/-- C9 (amended): a raw property whose upper-cased name is not
recognized decodes to `Other` carrying the property name *unchanged*
(not upper-cased) together with the raw value, and that decoding is
preserved in the interpreted event's property list, never dropped. -/
theorem c9_unknown_property_preserved (p : RawProperty) (ps : ParameterSet)
    (comp : Component) (cal : VCalendar) (fuel : Nat) (ev : VEvent)
    (hps : ParameterSet.ofRaw p.parameters = some ps)
    (hn : upperAscii p.name ∉ recognizedNames)
    (hmem : p ∈ comp.properties)
    (hev : (VEvent.tryFromComponent comp cal fuel).run = some (.ok ev)) :
    (Property.tryFrom p).run = some (.ok (.other p.name ⟨p.value, ps⟩)) ∧
    Property.other p.name ⟨p.value, ps⟩ ∈ ev.properties := by
  refine ⟨Property.tryFrom_unknown p ps hps hn, ?_⟩
  rw [VEvent.tryFromComponent] at hev
  split at hev
  · exact Except.noConfusion (Option.some.inj hev)
  · obtain ⟨acc, hfold, hasm⟩ := RRes.bind_ok _ _ _ hev
    rw [VEvent.assemble_properties cal fuel acc ev hasm]
    exact VEvent.foldl_unknown_mem p ps hps hn comp.properties {} acc hfold hmem

theorem c9_unknown_property_preserved_witness :
    (Property.tryFrom c9Prop).run =
      some (.ok (.other c9Prop.name ⟨c9Prop.value, ⟨[]⟩⟩)) ∧
    Property.other c9Prop.name ⟨c9Prop.value, ⟨[]⟩⟩ ∈ c9Event.properties :=
  c9_unknown_property_preserved c9Prop ⟨[]⟩ c9Comp c9Cal 10 c9Event rfl
    (by decide) (by decide) rfl
